import Mathlib

/- Formal model of the documentation style checker
   (src/streamlit_style_checker.py).

   Modelling conventions:
   * Python strings are lists of characters (`Str`); case mapping is modelled
     with ASCII semantics (all string constants in the program are ASCII).
   * Python `int` is `Int` (edit line numbers can be negative), list indexing
     follows Python semantics (negative indices count from the back) and a
     Python `IndexError` is modelled as `none`.
   * Python regular expressions are embedded as direct scanners for the
     specific patterns the program uses; each scanner is written next to a
     comment quoting the pattern it implements.
   * Nested `dict.get` configuration lookups are modelled by the record
     `StyleConfig` holding exactly the leaves the checker reads, each with the
     default the corresponding `.get` chain produces when the path is absent. -/

/-- Python strings, modelled as lists of characters. -/
abbrev Str := List Char

/-- Shorthand turning a Lean string literal into `Str`. -/
def S (s : String) : Str := s.data

/-- The single-quote character, written numerically. -/
def apos : Str := [Char.ofNat 39]

/-- The double-quote character, written numerically. -/
def dq : Str := [Char.ofNat 34]

/-- Splice a single quote between two literals (for Python literals such as
    the contraction words). -/
def ap (a b : String) : Str := a.data ++ apos ++ b.data

/-- Python whitespace, the character set recognised by `str.strip()`,
    `str.split()` and the regex class `\s`. -/
def isPySpace (c : Char) : Bool :=
  c.toNat == 32 || c.toNat == 9 || c.toNat == 10 || c.toNat == 13 ||
  c.toNat == 11 || c.toNat == 12

/-- ASCII lower-casing of one character (Python `str.lower`, per character). -/
def toLowerC (c : Char) : Char :=
  if 65 ≤ c.toNat ∧ c.toNat ≤ 90 then Char.ofNat (c.toNat + 32) else c

/-- ASCII upper-casing of one character (Python `str.upper`, per character). -/
def toUpperC (c : Char) : Char :=
  if 97 ≤ c.toNat ∧ c.toNat ≤ 122 then Char.ofNat (c.toNat - 32) else c

/-- Python `str.lower()`. -/
def pyLower (s : Str) : Str := s.map toLowerC

/-- Python `str.upper()`. -/
def pyUpper (s : Str) : Str := s.map toUpperC

/-- Python `c.isupper()` for an ASCII character. -/
def isUpperC (c : Char) : Bool := 65 ≤ c.toNat && c.toNat ≤ 90

/-- Python `c.islower()` for an ASCII character. -/
def isLowerC (c : Char) : Bool := 97 ≤ c.toNat && c.toNat ≤ 122

/-- Regex class `[0-9]`. -/
def isDigitC (c : Char) : Bool := 48 ≤ c.toNat && c.toNat ≤ 57

/-- Regex class `\w` (ASCII): letters, digits and underscore. -/
def isW (c : Char) : Bool := isUpperC c || isLowerC c || isDigitC c || c == '_'

/-- Python `str.strip()`: drop leading and trailing whitespace. -/
def pyStrip (s : Str) : Str :=
  ((s.dropWhile isPySpace).reverse.dropWhile isPySpace).reverse

/-- Python substring test `needle in hay`. -/
def pyIn : Str → Str → Bool
  | n, [] => n.isEmpty
  | n, c :: t => n.isPrefixOf (c :: t) || pyIn n t

/-- Python `s.split('\n')`. -/
def splitNL : Str → List Str
  | [] => [[]]
  | c :: t =>
    if c = '\n' then [] :: splitNL t
    else
      match splitNL t with
      | [] => [[c]]
      | h :: r => (c :: h) :: r

/-- Python `'\n'.join(lines)`. -/
def joinNL : List Str → Str
  | [] => []
  | [l] => l
  | l :: ls => l ++ '\n' :: joinNL ls

/-- Number of lines of a text, `len(s.split('\n'))`. -/
def countNL (s : Str) : Nat := (splitNL s).length

/-- Worker for `pyCount`; the fuel starts at the text length, which always
    suffices because every step consumes at least one character. -/
def pyCountFuel (sub : Str) : Nat → Str → Nat
  | 0, _ => 0
  | _ + 1, [] => 0
  | f + 1, c :: t =>
    if sub.isPrefixOf (c :: t) then 1 + pyCountFuel sub f (List.drop (sub.length - 1) t)
    else pyCountFuel sub f t

/-- Python `s.count(sub)`: non-overlapping occurrences, scanned left to right
    (an empty pattern counts `len(s)+1` as in Python). -/
def pyCount (s sub : Str) : Nat :=
  if sub.isEmpty then s.length + 1 else pyCountFuel sub s.length s

/-- Worker for `pyReplace`; fuel as in `pyCountFuel`. -/
def pyReplaceFuel (old new : Str) : Nat → Str → Str
  | 0, s => s
  | _ + 1, [] => []
  | f + 1, c :: t =>
    if old.isPrefixOf (c :: t) then new ++ pyReplaceFuel old new f (List.drop (old.length - 1) t)
    else c :: pyReplaceFuel old new f t

/-- Python `s.replace(old, new)`: all non-overlapping occurrences, left to
    right; an empty `old` inserts `new` before and after every character. -/
def pyReplace (s old new : Str) : Str :=
  if old.isEmpty then new ++ s.foldr (fun c acc => c :: (new ++ acc)) []
  else pyReplaceFuel old new s.length s

/-- Worker for `pyWords`: the accumulator holds the current word reversed. -/
def pyWordsAux : Str → Str → List Str
  | acc, [] => if acc.isEmpty then [] else [acc.reverse]
  | acc, c :: t =>
    if isPySpace c then
      if acc.isEmpty then pyWordsAux [] t else acc.reverse :: pyWordsAux [] t
    else pyWordsAux (c :: acc) t

/-- Python `str.split()` without separator: split on whitespace runs and drop
    empty pieces. -/
def pyWords (s : Str) : List Str := pyWordsAux [] s

/-- Python `' '.join(words)`. -/
def joinSpace : List Str → Str
  | [] => []
  | [w] => w
  | w :: ws => w ++ ' ' :: joinSpace ws

/-- Python `str.capitalize()`: first character upper-cased, rest lower-cased. -/
def pyCapitalize : Str → Str
  | [] => []
  | c :: t => toUpperC c :: pyLower t

/-- Worker for Python `str.istitle()`: the flag records whether the previous
    character was cased. -/
def pyIstitleAux : Bool → Str → Bool
  | _, [] => true
  | prevCased, c :: t =>
    if isUpperC c then (!prevCased) && pyIstitleAux true t
    else if isLowerC c then prevCased && pyIstitleAux true t
    else pyIstitleAux false t

/-- Python `str.istitle()` (ASCII): upper-case only at the start of a cased
    run, lower-case only inside one, and at least one cased character. -/
def pyIstitle (s : Str) : Bool :=
  s.any (fun c => isUpperC c || isLowerC c) && pyIstitleAux false s

/-- Character of `l` at position `i`, if any, tested for `\w`. -/
def isWAt (l : Str) (i : Nat) : Bool :=
  match l.get? i with
  | some c => isW c
  | none => false

/-- Regex `\b` (word boundary) at position `i` of `l`: exactly one of the
    neighbouring positions holds a `\w` character. -/
def atBoundary (l : Str) (i : Nat) : Bool :=
  ((i != 0) && isWAt l (i - 1)) != isWAt l i

/-- Python list index resolution: non-negative indices from the front,
    negative ones from the back; `none` models an `IndexError`. -/
def pyIdx (len : Nat) (i : Int) : Option Nat :=
  if 0 ≤ i then (if i < (len : Int) then some i.toNat else none)
  else (if -i ≤ (len : Int) then some (len - (-i).toNat) else none)

/-- Python `l[i] = g(l[i])` on a list of lines. -/
def pyModify (l : List Str) (i : Int) (g : Str → Str) : Option (List Str) :=
  match pyIdx l.length i with
  | none => none
  | some k =>
    match l.get? k with
    | none => none
    | some line => some (l.set k (g line))

/-- Order-preserving concatenation of the issue lists produced for the
    elements of `xs` (the append-only accumulation of the Python loops). -/
def bindL : List α → (α → List β) → List β
  | [], _ => []
  | x :: xs, f => f x ++ bindL xs f

/-- Python `str(n)` for a natural number. -/
def natToStr (n : Nat) : Str := (toString n).data

/-- Python `enumerate(xs, i)`. -/
def enumerateFrom : Int → List α → List (Int × α)
  | _, [] => []
  | i, x :: xs => (i, x) :: enumerateFrom (i + 1) xs

/-- Python `str.startswith(tuple)`. -/
def startsWithAny (l : Str) (pats : List Str) : Bool :=
  pats.any (fun p => p.isPrefixOf l)

/-- Maximal run of characters satisfying `p` at the front of a string:
    returns the run and the rest (the regex `p*` with greedy matching). -/
def munch (p : Char → Bool) : Str → Str × Str
  | [] => ([], [])
  | c :: t =>
    if p c then
      let r := munch p t
      (c :: r.1, r.2)
    else ([], c :: t)

/-- Case-insensitive literal prefix test. -/
def ciPrefix (pat s : Str) : Bool := (pyLower pat).isPrefixOf (pyLower s)

/-- Model of `re.compile(re.escape(pat), re.IGNORECASE).search(line)` for a
    lower-case literal `pat`: the first matching slice, in original case. -/
def searchCI : Str → Str → Option Str
  | pat, [] => if pat.isEmpty then some [] else none
  | pat, c :: t =>
    if ciPrefix pat (c :: t) then some (List.take pat.length (c :: t))
    else searchCI pat t

/-- Core of the Oxford-comma patterns: match `\w+,\s+\w+\s+and\s+\w+` at the
    front of `s`; returns the three `\w+` groups, the whole match and the
    rest.  Greedy maximal runs are exact here because every character class
    in the pattern is disjoint from the literal that follows it. -/
def matchOxfordCore (s : Str) : Option ((Str × Str × Str) × Str × Str) :=
  let m1 := munch isW s
  if m1.1.isEmpty then none else
  match m1.2 with
  | ',' :: r2 =>
    let m2 := munch isPySpace r2
    if m2.1.isEmpty then none else
    let m3 := munch isW m2.2
    if m3.1.isEmpty then none else
    let m4 := munch isPySpace m3.2
    if m4.1.isEmpty then none else
    if (S "and").isPrefixOf m4.2 then
      let r6 := m4.2.drop 3
      let m5 := munch isPySpace r6
      if m5.1.isEmpty then none else
      let m6 := munch isW m5.2
      if m6.1.isEmpty then none else
      some ((m1.1, m3.1, m6.1),
            m1.1 ++ ',' :: m2.1 ++ m3.1 ++ m4.1 ++ S "and" ++ m5.1 ++ m6.1,
            m6.2)
    else none
  | _ => none

/-- Worker for `findallOxford`; the flag records whether the previous
    character was a `\w` character (for the leading `\b`). -/
def findallOxfordFuel : Nat → Bool → Str → List Str
  | 0, _, _ => []
  | _ + 1, _, [] => []
  | f + 1, prevW, c :: t =>
    if (!prevW) && isW c then
      match matchOxfordCore (c :: t) with
      | some (_, whole, rest) => whole :: findallOxfordFuel f true rest
      | none => findallOxfordFuel f (isW c) t
    else findallOxfordFuel f (isW c) t

/-- Model of `re.findall(r'\b\w+,\s+\w+\s+and\s+\w+', line)`: the matched
    substrings, leftmost first, non-overlapping. -/
def findallOxford (l : Str) : List Str := findallOxfordFuel l.length false l

/-- Worker for `searchOxfordGroups` (the fixer pattern has no `\b`, so every
    start position is tried). -/
def searchOxfordGroupsFuel : Nat → Str → Option (Str × Str × Str × Str)
  | 0, _ => none
  | _ + 1, [] => none
  | f + 1, c :: t =>
    match matchOxfordCore (c :: t) with
    | some ((g1, g2, g3), whole, _) => some (whole, g1, g2, g3)
    | none => searchOxfordGroupsFuel f t

/-- Model of `re.search(r'(\w+),\s+(\w+)\s+and\s+(\w+)', line)`: the whole
    match and its three groups. -/
def searchOxfordGroups (l : Str) : Option (Str × Str × Str × Str) :=
  searchOxfordGroupsFuel l.length l

/-- Worker for `searchBoundedCI`. -/
def searchBoundedCIFuel (pat : Str) : Nat → Bool → Str → Bool
  | 0, _, _ => false
  | _ + 1, _, [] => false
  | f + 1, prevW, c :: t =>
    ((!prevW) && ciPrefix pat (c :: t) && !(isWAt (c :: t) pat.length)) ||
    searchBoundedCIFuel pat f (isW c) t

/-- Model of `re.search(r'\bPAT\b', line, re.IGNORECASE)` for a literal `PAT`
    whose first and last characters are `\w` (true of every compound-adjective
    literal in the program). -/
def searchBoundedCI (pat l : Str) : Bool := searchBoundedCIFuel pat l.length false l

/-- Worker for `searchCompoundNoun`. -/
def searchCompoundNounFuel (pat : Str) : Nat → Bool → Str → Option Str
  | 0, _, _ => none
  | _ + 1, _, [] => none
  | f + 1, prevW, c :: t =>
    if (!prevW) && ciPrefix pat (c :: t) then
      let rest := (c :: t).drop pat.length
      let msp := munch isPySpace rest
      let mw := munch isW msp.2
      if (!msp.1.isEmpty) && (!mw.1.isEmpty) then
        some ((c :: t).take pat.length ++ msp.1 ++ mw.1)
      else searchCompoundNounFuel pat f (isW c) t
    else searchCompoundNounFuel pat f (isW c) t

/-- Model of `re.search(r'\bPAT\b\s+\w+', line, re.IGNORECASE)` (and of the
    fixer pattern `\bPAT\s+(\w+)`, identical because the following `\s+`
    already forces the inner word boundary): the matched substring in its
    original case. -/
def searchCompoundNoun (pat l : Str) : Option Str :=
  searchCompoundNounFuel pat l.length false l

/-- Split a string at its first single-quote character: `(before, after)`. -/
def breakAtQuote : Str → Option (Str × Str)
  | [] => none
  | c :: t =>
    if c = Char.ofNat 39 then some ([], t)
    else
      match breakAtQuote t with
      | some (a, b) => some (c :: a, b)
      | none => none

/-- Worker for `findallSingleQuoted`.  A candidate whose content is empty
    fails (`[^']+` needs one character), and the scan then resumes at the
    closing quote, which becomes the next opening candidate. -/
def findallSQFuel : Nat → Str → List Str
  | 0, _ => []
  | _ + 1, [] => []
  | f + 1, c :: t =>
    if c = Char.ofNat 39 then
      match breakAtQuote t with
      | none => []
      | some (content, rest) =>
        if content.isEmpty then findallSQFuel f (Char.ofNat 39 :: rest)
        else content :: findallSQFuel f rest
    else findallSQFuel f t

/-- Model of `re.findall(r"'([^']+)'", line)`: the quoted contents, leftmost
    first; a successful match consumes its closing quote. -/
def findallSingleQuoted (l : Str) : List Str := findallSQFuel l.length l

/-- Worker for `fixQuotesSearch`.  A failed candidate (no keyword between the
    quotes) does not consume its closing quote: the scan resumes there, so
    consecutive quote pairs overlap, exactly as `re.search` restarts from the
    next position. -/
def fixQuotesSearchFuel (kws : List Str) : Nat → Str → Option Str
  | 0, _ => none
  | _ + 1, [] => none
  | f + 1, c :: t =>
    if c = Char.ofNat 39 then
      match breakAtQuote t with
      | none => none
      | some (content, rest) =>
        if (!content.isEmpty) && kws.any (fun k => pyIn k (pyLower content)) then some content
        else fixQuotesSearchFuel kws f (Char.ofNat 39 :: rest)
    else fixQuotesSearchFuel kws f t

/-- Model of
    `re.search(r"'([^']*(?:click|button|...)[^']*)'", line, re.IGNORECASE)`:
    the first single-quoted content containing one of the keywords. -/
def fixQuotesSearch (kws : List Str) (l : Str) : Option Str :=
  fixQuotesSearchFuel kws l.length l

/-- Match `<h[1-6][^>]*>([^<]+)</h[1-6]>` at the front of `s`, returning the
    inner group. -/
def matchHeadingTagAt (s : Str) : Option Str :=
  match s with
  | '<' :: 'h' :: d :: r1 =>
    if 49 ≤ d.toNat ∧ d.toNat ≤ 54 then
      let mattrs := munch (fun c => c != '>') r1
      match mattrs.2 with
      | '>' :: r3 =>
        let minner := munch (fun c => c != '<') r3
        if minner.1.isEmpty then none else
        match minner.2 with
        | '<' :: '/' :: 'h' :: d2 :: '>' :: _ =>
          if 49 ≤ d2.toNat ∧ d2.toNat ≤ 54 then some minner.1 else none
        | _ => none
      | _ => none
    else none
  | _ => none

/-- Worker for `searchHeadingTag`. -/
def searchHeadingTagFuel : Nat → Str → Option Str
  | 0, _ => none
  | _ + 1, [] => none
  | f + 1, c :: t =>
    match matchHeadingTagAt (c :: t) with
    | some inner => some inner
    | none => searchHeadingTagFuel f t

/-- Model of `re.search(r'<h[1-6][^>]*>([^<]+)</h[1-6]>', line)`: the first
    heading's inner text. -/
def searchHeadingTag (l : Str) : Option Str := searchHeadingTagFuel l.length l

/-- Match `(?:[0-9]{1,3}\.){3}[0-9]{1,3}\b` at the front of `s`.  Each digit
    group matches exactly the maximal digit run (a run longer than three
    digits fails whatever `{1,3}` takes, because the next character is then a
    digit, failing `\.` resp. the trailing `\b`). -/
def ipAt (s : Str) : Bool :=
  let m1 := munch isDigitC s
  if 1 ≤ m1.1.length ∧ m1.1.length ≤ 3 then
    match m1.2 with
    | '.' :: r2 =>
      let m2 := munch isDigitC r2
      if 1 ≤ m2.1.length ∧ m2.1.length ≤ 3 then
        match m2.2 with
        | '.' :: r3 =>
          let m3 := munch isDigitC r3
          if 1 ≤ m3.1.length ∧ m3.1.length ≤ 3 then
            match m3.2 with
            | '.' :: r4 =>
              let m4 := munch isDigitC r4
              if 1 ≤ m4.1.length ∧ m4.1.length ≤ 3 then
                match m4.2 with
                | [] => true
                | c :: _ => !isW c
              else false
            | _ => false
          else false
        | _ => false
      else false
    | _ => false
  else false

/-- Worker for `hasIPMatch` (the leading `\b` before a digit needs the
    previous character to not be `\w`). -/
def searchIPFuel : Nat → Bool → Str → Bool
  | 0, _, _ => false
  | _ + 1, _, [] => false
  | f + 1, prevW, c :: t =>
    ((!prevW) && ipAt (c :: t)) || searchIPFuel f (isW c) t

/-- Model of `re.search(r'\b(?:[0-9]{1,3}\.){3}[0-9]{1,3}\b', line)` as a
    Boolean (only its truth is used). -/
def hasIPMatch (l : Str) : Bool := searchIPFuel l.length false l

/-- Regex class `[A-Za-z0-9._%+-]` (the local part of the e-mail pattern). -/
def isEmailLocalC (c : Char) : Bool :=
  isUpperC c || isLowerC c || isDigitC c ||
  c == '.' || c == '_' || c == '%' || c == '+' || c == '-'

/-- Regex class `[A-Za-z0-9.-]` (the domain part of the e-mail pattern). -/
def isEmailDomainC (c : Char) : Bool :=
  isUpperC c || isLowerC c || isDigitC c || c == '.' || c == '-'

/-- Regex class `[A-Z|a-z]` (letters and a literal bar, the pattern's TLD
    class). -/
def isEmailTldC (c : Char) : Bool := isUpperC c || isLowerC c || c == '|'

/-- All characters of `l` in positions `[a, b)` satisfy `p`. -/
def sliceAll (p : Char → Bool) (l : Str) (a b : Nat) : Bool :=
  ((l.drop a).take (b - a)).all p

/-- Model of
    `re.search(r'\b[A-Za-z0-9._%+-]+@[A-Za-z0-9.-]+\.[A-Z|a-z]{2,}\b', line)`
    as a Boolean: a match exists iff the string decomposes as the pattern
    requires (backtracking finds a match exactly when one exists). -/
def emailCheck (l : Str) : Bool :=
  (List.range (l.length + 1)).any fun i =>
    atBoundary l i &&
    (List.range (l.length + 1)).any fun j =>
      decide (i < j) && decide (j < l.length) && sliceAll isEmailLocalC l i j &&
      l.get? j == some '@' &&
      (List.range (l.length + 1)).any fun k =>
        decide (j + 1 < k) && decide (k < l.length) && sliceAll isEmailDomainC l (j + 1) k &&
        l.get? k == some '.' &&
        (List.range (l.length + 2)).any fun m =>
          decide (k + 3 ≤ m) && decide (m ≤ l.length) && sliceAll isEmailTldC l (k + 1) m &&
          atBoundary l m

/-- Worker for `countBoundedWord`. -/
def countBWFuel (w : Str) : Nat → Bool → Str → Nat
  | 0, _, _ => 0
  | _ + 1, _, [] => 0
  | f + 1, prevW, c :: t =>
    if (!prevW) && w.isPrefixOf (c :: t) && !(isWAt (c :: t) w.length) then
      1 + countBWFuel w f true ((c :: t).drop w.length)
    else countBWFuel w f (isW c) t

/-- Model of `len(re.findall(r'\bW\b', s))` for a literal word `W` whose
    first and last characters are `\w` (as `phoenix` is). -/
def countBoundedWord (w l : Str) : Nat := countBWFuel w l.length false l

/-- Worker for `findallFence`. -/
def findallFenceFuel : Nat → Str → List Str
  | 0, _ => []
  | _ + 1, [] => []
  | f + 1, c :: t =>
    if (S "```").isPrefixOf (c :: t) then
      let r := (c :: t).drop 3
      let mcontent := munch (fun ch => ch != '`') r
      if mcontent.1.isEmpty then findallFenceFuel f t
      else if (S "```").isPrefixOf mcontent.2 then
        mcontent.1 :: findallFenceFuel f (mcontent.2.drop 3)
      else findallFenceFuel f t
    else findallFenceFuel f t

/-- Model of `re.findall(r'```([^`]+)```', text, re.MULTILINE | re.DOTALL)`:
    the fenced contents, leftmost first, non-overlapping. -/
def findallFence (l : Str) : List Str := findallFenceFuel l.length l

/-- Match `table\s+of\s+contents` at the front of a lower-cased string. -/
def matchTableOfContentsAt (s : Str) : Bool :=
  if (S "table").isPrefixOf s then
    let m1 := munch isPySpace (s.drop 5)
    if m1.1.isEmpty then false else
    if (S "of").isPrefixOf m1.2 then
      let m2 := munch isPySpace (m1.2.drop 2)
      if m2.1.isEmpty then false else (S "contents").isPrefixOf m2.2
    else false
  else false

/-- Model of `re.search(r'table\s+of\s+contents|toc', s, re.IGNORECASE)` as a
    Boolean. -/
def hasTocPattern (s : Str) : Bool :=
  let ls := pyLower s
  pyIn (S "toc") ls || (List.range ls.length).any (fun i => matchTableOfContentsAt (ls.drop i))

/-- Worker for `findallImg`. -/
def findallImgFuel : Nat → Str → List Str
  | 0, _ => []
  | _ + 1, [] => []
  | f + 1, c :: t =>
    if ciPrefix (S "<img") (c :: t) then
      let mattrs := munch (fun ch => ch != '>') ((c :: t).drop 4)
      match mattrs.2 with
      | '>' :: rest =>
        ((c :: t).take 4 ++ mattrs.1 ++ ['>']) :: findallImgFuel f rest
      | _ => findallImgFuel f t
    else findallImgFuel f t

/-- Model of `re.findall(r'<img[^>]*>', text, re.IGNORECASE)`: the matched
    tags in their original case. -/
def findallImg (l : Str) : List Str := findallImgFuel l.length l

/-- Model of `re.match(r'^\s*[-*]\s+', line)` as a Boolean. -/
def matchBulletPrefix (l : Str) : Bool :=
  match (munch isPySpace l).2 with
  | c :: r2 => (c == '-' || c == '*') && !((munch isPySpace r2).1.isEmpty)
  | [] => false

/-- Model of `re.match(r'^\s*\d+\.\s+', line)` as a Boolean. -/
def matchNumPrefix (l : Str) : Bool :=
  let mds := munch isDigitC (munch isPySpace l).2
  if mds.1.isEmpty then false else
  match mds.2 with
  | '.' :: r3 => !((munch isPySpace r3).1.isEmpty)
  | _ => false

/-- Regex class `[-*\d.]`. -/
def isListMarkChar (c : Char) : Bool := c == '-' || c == '*' || c == '.' || isDigitC c

/-- Model of `re.sub(r'^\s*[-*\d.]+\s+', '', line)`: remove the anchored
    prefix when it matches, otherwise return the line unchanged. -/
def stripListPrefix (l : Str) : Str :=
  let m1 := munch isPySpace l
  let m2 := munch isListMarkChar m1.2
  if m2.1.isEmpty then l else
  let m3 := munch isPySpace m2.2
  if m3.1.isEmpty then l else m3.2

/-- The `StyleIssue` dataclass. -/
structure StyleIssue where
  line_number : Int
  severity : Str
  category : Str
  message : Str
  rule : Str
  suggestion : Str := S ""
  original_text : Str := S ""
  auto_fix : Option Str := none
  can_auto_fix : Bool := false
deriving DecidableEq

/-- The `AutoFix` dataclass. -/
structure AutoFix where
  issue_id : Str
  original_text : Str
  fixed_text : Str
  line_number : Int
  description : Str
  confidence : Str
deriving DecidableEq

/-- Projection of the nested configuration mapping: exactly the leaves the
    checker reads through chained `.get` calls, each field holding the value
    the chain produces when the path is absent.  `product_names` is read by
    `_check_technical_content` but its loop appends no issue. -/
structure StyleConfig where
  voice_preferred : Option Str := none
  contractions_policy : Option Str := none
  capitalization_rule : Option Str := none
  oxford_comma_rule : Option Str := none
  hyphens_rule : Option Str := none
  quotes_rule : Option Str := none
  parallel_structure_required : Bool := false
  avoid_terms : List Str := []
  product_names : List (Str × Option Str) := []
  abbreviation_first_use : Bool := false
  command_examples : List Str := []
  process_examples : List Str := []
  deprecated_terms : List (Str × Str) := []
  discouraged_inline_styles : List Str := []
  required_sections : List Str := []

/-- Result of `ContentExtractor.extract_content`: the extracted text
    fragments, the fragment-position → source-line mapping and the headings
    `(level, text, source line)`. -/
structure Extraction where
  text : List Str := []
  lineMap : List (Nat × Int) := []
  headings : List (Nat × Str × Int) := []
deriving DecidableEq

/-- The `contractions_map` of `_fix_contractions`. -/
def contractions_map : List (Str × Str) :=
  [(ap "should" "ve", S "should have"), (ap "could" "ve", S "could have"),
   (ap "would" "ve", S "would have"), (ap "shouldn" "t", S "should not"),
   (ap "couldn" "t", S "could not"), (ap "wouldn" "t", S "would not")]

/-- Loop of `_fix_contractions`: first contraction present (case-insensitive)
    wins; the expansion's capitalisation follows the found slice. -/
def fix_contractions_go (ln : Int) (i : Nat) (line : Str) :
    List (Str × Str) → Option AutoFix
  | [] => none
  | (ctr, exp) :: rest =>
    if pyIn ctr (pyLower line) then
      match searchCI ctr line with
      | some (c :: cs) =>
        let fixed := if isUpperC c then pyCapitalize exp else exp
        some { issue_id := natToStr i, original_text := c :: cs, fixed_text := fixed,
               line_number := ln,
               description := S "Expand contraction " ++ apos ++ (c :: cs) ++ apos ++
                 S " to " ++ apos ++ fixed ++ apos,
               confidence := S "high" }
      | some [] => none
      | none => fix_contractions_go ln i line rest
    else fix_contractions_go ln i line rest

/-- `StyleFixer._fix_contractions`. -/
def fix_contractions (issue : StyleIssue) (line : Str) (i : Nat) : Option AutoFix :=
  fix_contractions_go issue.line_number i line contractions_map

/-- `StyleFixer._fix_oxford_comma`. -/
def fix_oxford_comma (issue : StyleIssue) (line : Str) (i : Nat) : Option AutoFix :=
  match searchOxfordGroups line with
  | some (whole, g1, g2, g3) =>
    some { issue_id := natToStr i, original_text := whole,
           fixed_text := g1 ++ S ", " ++ g2 ++ S ", and " ++ g3,
           line_number := issue.line_number,
           description := S "Add Oxford comma", confidence := S "high" }
  | none => none

/-- Loop of `_fix_deprecated_terms` over the configured mapping.  A configured
    empty old term would make Python raise on `original[0]`; that unreachable
    case is `none` here. -/
def fix_deprecated_go (ln : Int) (i : Nat) (line : Str) :
    List (Str × Str) → Option AutoFix
  | [] => none
  | (old, cur) :: rest =>
    if pyIn (pyLower old) (pyLower line) && cur != S "Remove; no longer useful" then
      match searchCI old line with
      | some (c :: cs) =>
        let fixed := if isUpperC c then pyCapitalize cur else cur
        some { issue_id := natToStr i, original_text := c :: cs, fixed_text := fixed,
               line_number := ln,
               description := S "Replace deprecated term " ++ apos ++ (c :: cs) ++ apos ++
                 S " with " ++ apos ++ fixed ++ apos,
               confidence := S "high" }
      | some [] => none
      | none => fix_deprecated_go ln i line rest
    else fix_deprecated_go ln i line rest

/-- `StyleFixer._fix_deprecated_terms`. -/
def fix_deprecated_terms (cfg : StyleConfig) (issue : StyleIssue) (line : Str)
    (i : Nat) : Option AutoFix :=
  fix_deprecated_go issue.line_number i line cfg.deprecated_terms

/-- The `phrasing_fixes` table of `_fix_approved_phrasing`. -/
def phrasing_fixes : List (Str × Str) :=
  [(S "the node is down", S "the node is unresponsive or unavailable"),
   (S "the node is dead", S "the node is unresponsive or unavailable"),
   (S "the data is corrupted", S "there is a potential data integrity issue"),
   (S "kill the service", S "stop the service"),
   (S "kill the process", S "stop the process"),
   (S "the service crashed", S "the service stopped unexpectedly"),
   (S "the drive is bad", S "the drive has a fault"),
   (S "the drive is broken", S "the drive has a fault")]

/-- Loop of `_fix_approved_phrasing`. -/
def fix_approved_go (ln : Int) (i : Nat) (line : Str) :
    List (Str × Str) → Option AutoFix
  | [] => none
  | (bad, good) :: rest =>
    if pyIn bad (pyLower line) then
      match searchCI bad line with
      | some (c :: cs) =>
        let fixed := if isUpperC c then pyCapitalize good else good
        some { issue_id := natToStr i, original_text := c :: cs, fixed_text := fixed,
               line_number := ln,
               description := S "Use approved phrasing", confidence := S "high" }
      | some [] => none
      | none => fix_approved_go ln i line rest
    else fix_approved_go ln i line rest

/-- `StyleFixer._fix_approved_phrasing`. -/
def fix_approved_phrasing (issue : StyleIssue) (line : Str) (i : Nat) : Option AutoFix :=
  fix_approved_go issue.line_number i line phrasing_fixes

/-- The `compounds` table shared by the hyphenation checker and fixer. -/
def compound_patterns : List (Str × Str) :=
  [(S "single node", S "single-node"), (S "command line", S "command-line"),
   (S "health check", S "health-check"), (S "real time", S "real-time"),
   (S "multi node", S "multi-node")]

/-- Loop of `_fix_compound_adjectives`: the produced fix substitutes the bare
    pair, not the matched slice. -/
def fix_compound_go (ln : Int) (i : Nat) (line : Str) :
    List (Str × Str) → Option AutoFix
  | [] => none
  | (unhyph, hyph) :: rest =>
    match searchCompoundNoun unhyph line with
    | some _ =>
      some { issue_id := natToStr i, original_text := unhyph, fixed_text := hyph,
             line_number := ln,
             description := S "Add hyphen to compound adjective",
             confidence := S "medium" }
    | none => fix_compound_go ln i line rest

/-- `StyleFixer._fix_compound_adjectives`. -/
def fix_compound_adjectives (issue : StyleIssue) (line : Str) (i : Nat) : Option AutoFix :=
  fix_compound_go issue.line_number i line compound_patterns

/-- Keyword list of the `_fix_quotes` pattern. -/
def quote_indicators_fix : List Str :=
  [S "click", S "button", S "menu", S "dialog", S "error", S "alert", S "warning"]

/-- `StyleFixer._fix_quotes`. -/
def fix_quotes (issue : StyleIssue) (line : Str) (i : Nat) : Option AutoFix :=
  match fixQuotesSearch quote_indicators_fix line with
  | some content =>
    some { issue_id := natToStr i, original_text := apos ++ content ++ apos,
           fixed_text := dq ++ content ++ dq,
           line_number := issue.line_number,
           description := S "Use double quotes for UI text", confidence := S "medium" }
  | none => none

/-- The `passive_patterns` table of `_fix_passive_voice`. -/
def passive_patterns_fix : List (Str × Str) :=
  [(S "is set by", S "sets"), (S "are set by", S "set"),
   (S "is restarted by", S "restarts"), (S "are restarted by", S "restart")]

/-- Loop of `_fix_passive_voice`. -/
def fix_passive_go (ln : Int) (i : Nat) (line : Str) :
    List (Str × Str) → Option AutoFix
  | [] => none
  | (pas, act) :: rest =>
    if pyIn pas (pyLower line) then
      some { issue_id := natToStr i, original_text := pas, fixed_text := act,
             line_number := ln,
             description := S "Convert to active voice (review suggested change)",
             confidence := S "low" }
    else fix_passive_go ln i line rest

/-- `StyleFixer._fix_passive_voice`. -/
def fix_passive_voice (issue : StyleIssue) (line : Str) (i : Nat) : Option AutoFix :=
  fix_passive_go issue.line_number i line passive_patterns_fix

/-- Acronym set of `_convert_to_sentence_case` (this list includes `KB`;
    the heading checker's list does not). -/
def sc_acronyms : List Str :=
  [S "AOS", S "AHV", S "CVM", S "NCC", S "DSF", S "PC", S "PE", S "NC2",
   S "API", S "UI", S "CLI", S "SSH", S "IP", S "VM", S "CPU", S "RAM",
   S "SSD", S "HDD", S "KB"]

/-- Articles/prepositions/conjunctions lower-cased by
    `_convert_to_sentence_case`. -/
def sc_small_words : List Str :=
  [S "a", S "an", S "the", S "and", S "or", S "but", S "for", S "nor",
   S "on", S "at", S "to", S "from", S "by", S "of", S "in", S "with"]

/-- Per-word rule of `_convert_to_sentence_case` for words after the first
    (the two lower-casing branches are kept separate as in the source). -/
def sentence_case_rest (w : Str) : Str :=
  if sc_acronyms.contains (pyUpper w) then pyUpper w
  else if sc_small_words.contains (pyLower w) then pyLower w
  else pyLower w

/-- `StyleFixer._convert_to_sentence_case`. -/
def convert_to_sentence_case (text : Str) : Str :=
  match pyWords text with
  | [] => text
  | w :: ws => joinSpace (pyCapitalize w :: ws.map sentence_case_rest)

/-- `StyleFixer._fix_heading_capitalization` (the recomputed `fixed_line` of
    the source is unused there and not modelled). -/
def fix_heading_capitalization (issue : StyleIssue) (line : Str) (i : Nat) :
    Option AutoFix :=
  match searchHeadingTag line with
  | some inner =>
    let fixed := convert_to_sentence_case inner
    if inner != fixed then
      some { issue_id := natToStr i, original_text := inner, fixed_text := fixed,
             line_number := issue.line_number,
             description := S "Convert heading to sentence case",
             confidence := S "high" }
    else none
  | none => none

/-- `StyleFixer._create_fix_for_issue`: guard on the line count, fetch the
    target line (Python would raise on a large negative line number; that
    unreachable case is `none`), then dispatch on the rule id. -/
def create_fix_for_issue (cfg : StyleConfig) (issue : StyleIssue)
    (lines : List Str) (i : Nat) : Option AutoFix :=
  if issue.line_number > (lines.length : Int) then none
  else
    match pyIdx lines.length (issue.line_number - 1) with
    | none => none
    | some k =>
      match lines.get? k with
      | none => none
      | some line =>
        if issue.rule == S "capitalization" && pyIn (S "heading") (pyLower issue.message) then
          fix_heading_capitalization issue line i
        else if issue.rule == S "contractions" then fix_contractions issue line i
        else if issue.rule == S "oxford_comma" then fix_oxford_comma issue line i
        else if issue.rule == S "deprecated_terms" then fix_deprecated_terms cfg issue line i
        else if issue.rule == S "voice_and_mood" then fix_passive_voice issue line i
        else if issue.rule == S "approved_phrasing" then fix_approved_phrasing issue line i
        else if issue.rule == S "hyphens" then fix_compound_adjectives issue line i
        else if issue.rule == S "quotes" then fix_quotes issue line i
        else none

/-- Loop of `StyleFixer.generate_fixes` with the running `enumerate` index. -/
def generate_fixes_go (cfg : StyleConfig) (lines : List Str) :
    Nat → List StyleIssue → List AutoFix
  | _, [] => []
  | i, issue :: rest =>
    (if issue.can_auto_fix then
       match create_fix_for_issue cfg issue lines i with
       | some fx => [fx]
       | none => []
     else []) ++ generate_fixes_go cfg lines (i + 1) rest

/-- `StyleFixer.generate_fixes`. -/
def generate_fixes (cfg : StyleConfig) (content : Str) (issues : List StyleIssue) :
    List AutoFix :=
  generate_fixes_go cfg (splitNL content) 0 issues

/-- Stable insertion placing `f` before the first strictly smaller line
    number (ties keep their existing order, as Python's stable
    `sorted(..., reverse=True)` does). -/
def insertDescByLine (f : AutoFix) : List AutoFix → List AutoFix
  | [] => [f]
  | g :: t => if g.line_number < f.line_number then f :: g :: t else g :: insertDescByLine f t

/-- Model of `sorted(fixes, key=lambda f: f.line_number, reverse=True)`. -/
def sortFixesDesc (fixes : List AutoFix) : List AutoFix :=
  fixes.foldl (fun acc f => insertDescByLine f acc) []

/-- Loop of `StyleFixer.apply_fixes`: each in-range fix replaces the first
    occurrences on its target line; a large negative line number is a Python
    `IndexError`, modelled as `none`.  (The `fixes_applied` log kept on the
    fixer object is write-only state and is not modelled.) -/
def apply_fixes_loop : List Str → List AutoFix → Option (List Str)
  | lines, [] => some lines
  | lines, f :: rest =>
    if f.line_number ≤ (lines.length : Int) then
      match pyModify lines (f.line_number - 1)
          (fun line => pyReplace line f.original_text f.fixed_text) with
      | some lines2 => apply_fixes_loop lines2 rest
      | none => none
    else apply_fixes_loop lines rest

/-- `StyleFixer.apply_fixes`. -/
def apply_fixes (content : Str) (fixes : List AutoFix) : Option Str :=
  (apply_fixes_loop (splitNL content) (sortFixesDesc fixes)).map joinNL

/-- An `xml.etree.ElementTree` element: tag, direct text, tail text (the text
    following the element's close tag inside its parent) and children. -/
inductive XmlNode where
  | node (tag : Str) (text : Option Str) (tail : Option Str) (children : List XmlNode)

/-- Tail text of an element. -/
def XmlNode.tailText : XmlNode → Option Str
  | .node _ _ tl _ => tl

/-- Heading tag names recognised by the extractor, with their levels
    (`element.tag.lower() in ['h1', ..., 'h6']`, level `int(tag[1])`). -/
def headingLevel (tag : Str) : Option Nat :=
  List.lookup (pyLower tag)
    [(S "h1", 1), (S "h2", 2), (S "h3", 3), (S "h4", 4), (S "h5", 5), (S "h6", 6)]

/-- `ContentExtractor._find_text_line` from a running 1-based index. -/
def findTextLineFrom : Int → List Str → Str → Int
  | _, [], _ => 1
  | i, line :: rest, t => if pyIn t line then i else findTextLineFrom (i + 1) rest t

/-- `ContentExtractor._find_text_line`: first source line containing the text
    as a substring, line 1 when none does. -/
def find_text_line (t : Str) (lines : List Str) : Int := findTextLineFrom 1 lines t

/-- Append one fragment to the extraction state: the fragment text, its line
    map entry at the next position, and — under a heading tag — a heading. -/
def pushFragment (origLines : List Str) (st : Extraction) (tag : Option Str)
    (raw : Str) : Extraction :=
  if (pyStrip raw).isEmpty then st
  else
    let t := pyStrip raw
    let ln := find_text_line t origLines
    let st1 : Extraction :=
      { st with text := st.text ++ [t], lineMap := st.lineMap ++ [(st.text.length + 1, ln)] }
    match tag with
    | some tg =>
      match headingLevel tg with
      | some lvl => { st1 with headings := st1.headings ++ [(lvl, t, ln)] }
      | none => st1
    | none => st1

mutual

/-- `ContentExtractor._walk_xml_tree`: the element's own text first (with
    heading detection on the element's tag), then each child recursively
    followed by that child's tail text. -/
def walkXml (origLines : List Str) (st : Extraction) : XmlNode → Extraction
  | .node tag text _ children =>
    let st1 :=
      match text with
      | some tx => pushFragment origLines st (some tag) tx
      | none => st
    walkXmlChildren origLines st1 children

/-- Child loop of `_walk_xml_tree`. -/
def walkXmlChildren (origLines : List Str) (st : Extraction) :
    List XmlNode → Extraction
  | [] => st
  | child :: rest =>
    let st1 := walkXml origLines st child
    let st2 :=
      match child.tailText with
      | some tl => pushFragment origLines st1 none tl
      | none => st1
    walkXmlChildren origLines st2 rest

end

/-- A character that expat accepts verbatim inside element content in the
    modelled subset: ASCII, printable or tab/newline/carriage-return, and
    not a markup character. -/
def xmlSafeChar (c : Char) : Bool :=
  c != '<' && c != '&' && c.toNat < 128 &&
  (32 ≤ c.toNat || c == '\n' || c == '\t' || c == '\r')

/-- Model of `xml.etree.ElementTree.fromstring("<root>" + T + "</root>")` for
    markup-free `T`: a single root element whose text is `T`.  Inputs outside
    this subset (markup characters, entity references, a `]]>` sequence or
    non-ASCII content) are not modelled and give `none`. -/
def parseWrappedRoot (t : Str) : Option XmlNode :=
  if t.all xmlSafeChar && !(pyIn (S "]]>") t) then
    some (.node (S "root") (if t.isEmpty then none else some t) none [])
  else none

/-- Model of `re.match(r'^\s*<[^>]+>', s)` as a Boolean. -/
def leadingTagMatch (s : Str) : Bool :=
  match (s.dropWhile isPySpace) with
  | '<' :: rest =>
    let minner := munch (fun c => c != '>') rest
    (!minner.1.isEmpty) &&
    (match minner.2 with
     | '>' :: _ => true
     | _ => false)
  | _ => false

/-- Loop of `ContentExtractor._extract_plain_text` with the running
    `enumerate` index. -/
def extract_plain_text_loop : Extraction → Int → List Str → Extraction
  | st, _, [] => st
  | st, i, line :: rest =>
    let st1 :=
      if (pyStrip line).isEmpty then st
      else
        { st with text := st.text ++ [pyStrip line],
                  lineMap := st.lineMap ++ [(st.text.length + 1, i)] }
    extract_plain_text_loop st1 (i + 1) rest

/-- `ContentExtractor._extract_plain_text`: one fragment per non-blank source
    line, mapped to its own 1-based position. -/
def extract_plain_text (origLines : List Str) : Extraction :=
  extract_plain_text_loop {} 1 origLines

/-- `ContentExtractor._extract_from_xml`.  The first guard wraps the document
    in a synthetic root whenever it does not start with an XML declaration
    and has no leading tag — which includes every plain-text document, so the
    `elif` branch calling `_extract_plain_text` can never be taken (its guard
    contradicts the negation of the first).  Branches that run the strict
    XML parser on real markup, or fall back to the permissive HTML parser,
    are outside the modelled subset and give `none`. -/
def extract_from_xml (markup : Str) (origLines : List Str) : Option Extraction :=
  let stripped := pyStrip markup
  if (!((S "<?xml").isPrefixOf stripped)) && (!leadingTagMatch stripped) then
    match parseWrappedRoot markup with
    | some root => some (walkXml origLines {} root)
    | none => none
  else if !((S "<").isPrefixOf stripped) then
    some (extract_plain_text origLines)
  else none

/-- `ContentExtractor.extract_content`: split the source into lines and run
    the XML strategy (the HTML fallback taken on a parse error is outside the
    modelled subset and never reached for modelled inputs). -/
def extract_content (markup : Str) : Option Extraction :=
  extract_from_xml markup (splitNL markup)

/-- The `passive_indicators` list of `_check_writing_standards`. -/
def passive_indicators : List Str :=
  [S "is set", S "are set", S "was set", S "were set", S "is monitored",
   S "are monitored", S "is performed", S "are performed", S "is created",
   S "are created"]

/-- The `avoid_contractions` list of `_check_writing_standards`. -/
def avoid_contractions : List Str :=
  [ap "should" "ve", ap "could" "ve", ap "would" "ve",
   ap "shouldn" "t", ap "couldn" "t", ap "wouldn" "t"]

/-- The `third_person_refs` list of `_check_writing_standards`. -/
def third_person_refs : List Str :=
  [S "the end user", S "the user", S "the customer", S "users can", S "customers can"]

/-- The `expansions` table of `_expand_contraction`. -/
def contraction_expansions : List (Str × Str) :=
  [(ap "won" "t", S "will not"), (ap "don" "t", S "do not"),
   (ap "can" "t", S "cannot"), (ap "shouldn" "t", S "should not"),
   (ap "couldn" "t", S "could not"), (ap "wouldn" "t", S "would not"),
   (ap "isn" "t", S "is not"), (ap "aren" "t", S "are not"),
   (ap "should" "ve", S "should have"), (ap "could" "ve", S "could have"),
   (ap "would" "ve", S "would have")]

/-- `StreamlitStyleChecker._expand_contraction`. -/
def expand_contraction (c : Str) : Str :=
  match contraction_expansions.lookup (pyLower c) with
  | some e => e
  | none => c

/-- `StreamlitStyleChecker._check_writing_standards`: voice and mood,
    contractions policy, third-person references, approved phrasing.  (The
    `preferred_terms` mapping is fetched by the source but never used.) -/
def check_writing_standards (cfg : StyleConfig) (line : Str) (ln : Int) :
    List StyleIssue :=
  (if cfg.voice_preferred == some (S "active_voice_imperative") then
    bindL passive_indicators (fun ind =>
      if pyIn ind (pyLower line) then
        [{ line_number := ln, severity := S "warning",
           category := S "Grammar and Mechanics",
           message := S "Passive voice detected: " ++ apos ++ ind ++ apos,
           rule := S "voice_and_mood",
           suggestion := S "Use active voice and imperative mood. Example: " ++ apos ++
             S "Run the NCC health check" ++ apos ++ S " instead of " ++ apos ++
             S "The NCC health check should be run" ++ apos }]
      else [])
   else []) ++
  (if cfg.contractions_policy == some (S "use_sparingly") then
    bindL avoid_contractions (fun ctr =>
      if pyIn ctr (pyLower line) then
        [{ line_number := ln, severity := S "warning",
           category := S "Grammar and Mechanics",
           message := S "Contraction " ++ apos ++ ctr ++ apos ++ S " should be avoided",
           rule := S "contractions",
           suggestion := S "Use full form: " ++ ctr ++ S " → " ++ expand_contraction ctr,
           original_text := ctr, can_auto_fix := true }]
      else [])
   else []) ++
  bindL third_person_refs (fun ref =>
    if pyIn ref (pyLower line) then
      [{ line_number := ln, severity := S "info",
         category := S "Grammar and Mechanics",
         message := S "Third-person reference: " ++ apos ++ ref ++ apos,
         rule := S "direct_address",
         suggestion := S "Use " ++ apos ++ S "you" ++ apos ++
           S " to address the reader directly" }]
    else []) ++
  bindL cfg.avoid_terms (fun term =>
    if pyIn (pyLower term) (pyLower line) then
      [{ line_number := ln, severity := S "warning", category := S "Terminology",
         message := S "Avoid term: " ++ apos ++ term ++ apos,
         rule := S "approved_phrasing",
         suggestion :=
           if pyLower term == S "the node is down/dead" then
             S "Use: " ++ apos ++ S "The node is unresponsive or unavailable." ++ apos
           else if pyLower term == S "the data is corrupted" then
             S "Use: " ++ apos ++ S "There is a potential data integrity issue." ++ apos
           else S "Use calm, precise language",
         original_text := term, can_auto_fix := true }]
    else [])

/-- Quote-content indicators of `_check_grammar_and_mechanics` (this list has
    `.xml`/`.log` and no `warning`; the fixer's list differs). -/
def quote_indicators_check : List Str :=
  [S "click", S "button", S "menu", S "dialog", S ".xml", S ".log", S "error", S "alert"]

/-- Imperative list-item openers of the parallel-structure heuristic. -/
def imperative_starts : List Str :=
  [S "check", S "verify", S "run", S "click", S "enter"]

/-- Gerund list-item openers of the parallel-structure heuristic. -/
def gerund_starts : List Str := [S "checking", S "verifying", S "running"]

/-- `StreamlitStyleChecker._check_grammar_and_mechanics`: Oxford comma,
    compound-adjective hyphens, quote style, list parallel structure. -/
def check_grammar_and_mechanics (cfg : StyleConfig) (line : Str) (ln : Int) :
    List StyleIssue :=
  (if cfg.oxford_comma_rule == some (S "always_use") then
    bindL (findallOxford line) (fun m =>
      if !(pyIn (S ", and") m) then
        [{ line_number := ln, severity := S "info",
           category := S "Grammar and Mechanics",
           message := S "Missing Oxford comma in: " ++ apos ++ m ++ apos,
           rule := S "oxford_comma",
           suggestion := S "Always use Oxford comma in lists of three or more items",
           original_text := m, can_auto_fix := true }]
      else [])
   else []) ++
  (if cfg.hyphens_rule == some (S "compound_adjectives") then
    bindL compound_patterns (fun p =>
      if searchBoundedCI p.1 line then
        match searchCompoundNoun p.1 line with
        | some m =>
          [{ line_number := ln, severity := S "info",
             category := S "Grammar and Mechanics",
             message := S "Compound adjective should be hyphenated: " ++ apos ++ m ++ apos,
             rule := S "hyphens",
             suggestion := S "Use " ++ apos ++ p.2 ++ apos ++ S " when it modifies a noun",
             original_text := m }]
        | none => []
      else [])
   else []) ++
  (if cfg.quotes_rule == some (S "double_quotes") then
    bindL (findallSingleQuoted line) (fun m =>
      if quote_indicators_check.any (fun ind => pyIn ind (pyLower m)) then
        [{ line_number := ln, severity := S "info",
           category := S "Grammar and Mechanics",
           message := S "Use double quotes for UI text: " ++ apos ++ m ++ apos,
           rule := S "quotes",
           suggestion := S "Use double quotes for UI text, alerts, file names, or input strings",
           original_text := apos ++ m ++ apos }]
      else [])
   else []) ++
  (if cfg.parallel_structure_required then
    if matchBulletPrefix line || matchNumPrefix line then
      let list_item := pyStrip (stripListPrefix line)
      if !list_item.isEmpty then
        if startsWithAny (pyLower list_item) imperative_starts then []
        else if startsWithAny (pyLower list_item) gerund_starts then
          [{ line_number := ln, severity := S "info",
             category := S "Grammar and Mechanics",
             message := S "List items should have parallel structure",
             rule := S "parallel_structure",
             suggestion := S "Use consistent grammatical structure across all list items (all imperatives or all gerunds)",
             original_text := list_item }]
        else []
      else []
    else []
   else [])

/-- Negative terms with their replacement suggestions
    (`_check_content_quality`). -/
def negative_terms : List (Str × Str) :=
  [(S "bug", S "issue"), (S "crash", S "failure"),
   (S "panic", S "halt"), (S "stuck", S "no progress")]

/-- Non-inclusive terms with their replacements (`_check_content_quality`). -/
def non_inclusive_terms : List (Str × Str) :=
  [(S "master/slave", S "primary/secondary"), (S "blacklist", S "deny list"),
   (S "whitelist", S "allow list")]

/-- `StreamlitStyleChecker._check_content_quality` (the `prohibited`
    configuration value is fetched by the source but never used). -/
def check_content_quality (line : Str) (ln : Int) : List StyleIssue :=
  bindL negative_terms (fun p =>
    if pyIn (' ' :: p.1) (pyLower line) || pyIn (p.1 ++ [' ']) (pyLower line) then
      [{ line_number := ln, severity := S "warning", category := S "Content Quality",
         message := S "Negative term " ++ apos ++ p.1 ++ apos ++ S " found",
         rule := S "avoid_negative_terms",
         suggestion := S "Use " ++ apos ++ p.2 ++ apos ++ S " instead of " ++ apos ++
           p.1 ++ apos }]
    else []) ++
  bindL non_inclusive_terms (fun p =>
    if pyIn p.1 (pyLower line) then
      [{ line_number := ln, severity := S "error", category := S "Content Quality",
         message := S "Non-inclusive term " ++ apos ++ p.1 ++ apos ++ S " found",
         rule := S "inclusive_language",
         suggestion := S "Use " ++ apos ++ p.2 ++ apos ++ S " instead" }]
    else [])

/-- `StreamlitStyleChecker._check_formatting_standards` (the style substring
    is matched case-sensitively against the raw line). -/
def check_formatting_standards (cfg : StyleConfig) (line : Str) (ln : Int) :
    List StyleIssue :=
  bindL cfg.discouraged_inline_styles (fun style =>
    if pyIn style line then
      [{ line_number := ln, severity := S "warning", category := S "Formatting",
         message := S "Discouraged inline style found: " ++ style,
         rule := S "inline_styles",
         suggestion := S "Remove inline styles and use default formatting" }]
    else [])

/-- `StreamlitStyleChecker._check_training_standards`: IPv4-looking patterns
    except the masked form, e-mail-looking patterns except the company
    domain. -/
def check_training_standards (line : Str) (ln : Int) : List StyleIssue :=
  (if hasIPMatch line && !(pyIn (S "x.x.x.") line) then
    [{ line_number := ln, severity := S "error", category := S "Training Standards",
       message := S "Possible real IP address found",
       rule := S "pii_guidelines",
       suggestion := S "Replace with masked format like " ++ apos ++ S "x.x.x.123" ++ apos ++
         S " or " ++ apos ++ S "nutanix@cvm:x.x.x.123:~$" ++ apos }]
   else []) ++
  (if emailCheck line && !(pyIn (S "@nutanix.com") (pyLower line)) then
    [{ line_number := ln, severity := S "error", category := S "Training Standards",
       message := S "Possible email address found",
       rule := S "pii_guidelines",
       suggestion := S "Remove personal email addresses or use generic examples" }]
   else [])

/-- The built-in acronym → full-name table of `_check_technical_content`. -/
def common_acronyms : List (Str × Str) :=
  [(S "CVM", S "Controller VM"), (S "AHV", S "Nutanix AHV"),
   (S "NCC", S "Nutanix Cluster Check"), (S "AOS", S "Nutanix AOS"),
   (S "DSF", S "Distributed Storage Fabric")]

/-- `StreamlitStyleChecker._check_technical_content`: acronym first-use
    definitions, monospace formatting of configured commands/processes, and
    deprecated terms.  (The `product_names` loop of the source reads the
    configuration but appends no issue — its only statement is `pass` — so it
    contributes nothing here.) -/
def check_technical_content (cfg : StyleConfig) (line : Str) (ln : Int) :
    List StyleIssue :=
  (if cfg.abbreviation_first_use then
    bindL common_acronyms (fun p =>
      if pyIn p.1 line && !(pyIn (S "(" ++ p.1 ++ S ")") line) then
        if !(pyIn (pyLower p.2) (pyLower line)) then
          [{ line_number := ln, severity := S "info", category := S "Terminology",
             message := S "Acronym " ++ apos ++ p.1 ++ apos ++ S " used without definition",
             rule := S "abbreviation_rules",
             suggestion := S "Define acronyms on first use: " ++ apos ++ p.2 ++
               S " (" ++ p.1 ++ S ")" ++ apos }]
        else []
      else [])
   else []) ++
  bindL (cfg.command_examples ++ cfg.process_examples) (fun term =>
    if pyIn term line && !(pyIn (S "`" ++ term ++ S "`") line) &&
        !(pyIn (S "<code>" ++ term ++ S "</code>") line) then
      [{ line_number := ln, severity := S "info", category := S "Formatting",
         message := S "Technical term " ++ apos ++ term ++ apos ++
           S " should be in monospace",
         rule := S "command_formatting",
         suggestion := S "Format as monospace: `" ++ term ++ S "`" }]
    else []) ++
  bindL cfg.deprecated_terms (fun p =>
    if pyIn (pyLower p.1) (pyLower line) then
      if p.2 != S "Remove; no longer useful" then
        [{ line_number := ln, severity := S "warning", category := S "Terminology",
           message := S "Deprecated term " ++ apos ++ p.1 ++ apos ++ S " found",
           rule := S "deprecated_terms",
           suggestion := S "Use " ++ apos ++ p.2 ++ apos ++ S " instead of " ++ apos ++
             p.1 ++ apos,
           original_text := p.1, can_auto_fix := true }]
      else
        [{ line_number := ln, severity := S "warning", category := S "Terminology",
           message := S "Deprecated term " ++ apos ++ p.1 ++ apos ++ S " should be removed",
           rule := S "deprecated_terms",
           suggestion := S "Remove " ++ apos ++ p.1 ++ apos ++ S " - no longer useful" }]
    else [])

/-- Acronym list of `_check_headings` (18 entries; unlike the sentence-case
    fixer's list it has no `KB`). -/
def known_acronyms_heading : List Str :=
  [S "AOS", S "AHV", S "CVM", S "NCC", S "DSF", S "PC", S "PE", S "NC2",
   S "API", S "UI", S "CLI", S "SSH", S "IP", S "VM", S "CPU", S "RAM",
   S "SSD", S "HDD"]

/-- One summand of the `capitalized_count` of `_check_headings`: the word
    starts upper-case, is not a known acronym and is not title-cased.  Words
    come from `split()` and are never empty. -/
def headingCapWordFlag (w : Str) : Bool :=
  match w with
  | [] => false
  | c :: _ =>
    isUpperC c && !(known_acronyms_heading.contains (pyUpper w)) && !(pyIstitle w)

/-- `StreamlitStyleChecker._check_headings`: under the sentence-case rule,
    flag headings where any word after the first is capitalised (excluding
    known acronyms and title-cased words). -/
def check_headings (cfg : StyleConfig) (headings : List (Nat × Str × Int)) :
    List StyleIssue :=
  if cfg.capitalization_rule == some (S "sentence_case") then
    bindL headings (fun h =>
      let words := pyWords h.2.1
      if words.length > 1 then
        if (words.drop 1).countP (fun w => headingCapWordFlag w) > 0 then
          [{ line_number := h.2.2, severity := S "warning",
             category := S "Grammar and Mechanics",
             message := S "Heading should use sentence case: " ++ apos ++ h.2.1 ++ apos,
             rule := S "capitalization",
             suggestion := S "Use sentence case - capitalize only the first word and proper nouns/acronyms",
             original_text := h.2.1, can_auto_fix := true }]
        else []
      else [])
  else []

/-- The `complexity_indicators` list of `_check_document_patterns`. -/
def complexity_indicators : List Str :=
  [S "utilize", S "facilitate", S "implement", S "comprehensive", S "substantial"]

/-- `StreamlitStyleChecker._check_document_patterns`: missing recommended
    sections, aggregate jargon count, and mixed `phoenix`/`Phoenix`
    capitalisation. -/
def check_document_patterns (cfg : StyleConfig) (lines : List Str) :
    List StyleIssue :=
  let content_text := pyLower (joinNL lines)
  bindL cfg.required_sections (fun sec =>
    if !(pyIn (pyLower sec) content_text) then
      [{ line_number := 1, severity := S "info", category := S "Training Standards",
         message := S "Training module missing recommended section: " ++ apos ++ sec ++ apos,
         rule := S "training_structure",
         suggestion := S "Consider adding a " ++ apos ++ sec ++ apos ++
           S " section for complete training coverage" }]
    else []) ++
  (let jargon_count := (complexity_indicators.map (fun w => pyCount content_text w)).sum
   if jargon_count > 10 then
     [{ line_number := 1, severity := S "info", category := S "Writing Standards",
        message := S "High use of complex terms (" ++ natToStr jargon_count ++
          S " instances) - consider simpler alternatives",
        rule := S "language_clarity",
        suggestion := S "Use simpler, more direct language: " ++ apos ++ S "use" ++ apos ++
          S " instead of " ++ apos ++ S "utilize" ++ apos ++ S ", " ++ apos ++ S "help" ++
          apos ++ S " instead of " ++ apos ++ S "facilitate" ++ apos }]
   else []) ++
  (let phoenix_mentions := countBoundedWord (S "phoenix") content_text
   let capPhoenix_mentions := countBoundedWord (S "Phoenix") (joinNL lines)
   if phoenix_mentions > 0 && capPhoenix_mentions > 0 then
     [{ line_number := 1, severity := S "warning", category := S "Phoenix Terminology",
        message := S "Mixed capitalization: " ++ apos ++ S "phoenix" ++ apos ++ S " (" ++
          natToStr phoenix_mentions ++ S ") and " ++ apos ++ S "Phoenix" ++ apos ++
          S " (" ++ natToStr capPhoenix_mentions ++ S ")",
        rule := S "phoenix_consistency",
        suggestion := S "Use " ++ apos ++ S "Phoenix" ++ apos ++
          S " (capitalized) consistently when referring to the tool" }]
   else [])

/-- The `link_patterns` list of `_check_content_accessibility`. -/
def link_patterns : List Str :=
  [S "click here", S "read more", S "see here", S "here", S "this link"]

/-- The `ability_terms` list of `_check_content_accessibility`. -/
def ability_terms : List Str :=
  [S "see the image", S "look at", S "as you can see", S "obviously", S "clearly"]

/-- Per-line part of `_check_content_accessibility`. -/
def accessibilityLineIssues (ln : Int) (line : Str) : List StyleIssue :=
  bindL link_patterns (fun pat =>
    if pyIn pat (pyLower line) && (pyIn (S "<a") line || pyIn (S "href") line) then
      [{ line_number := ln, severity := S "warning", category := S "Content Quality",
         message := S "Non-descriptive link text: " ++ apos ++ pat ++ apos,
         rule := S "descriptive_links",
         suggestion := S "Use descriptive link text that explains what the link leads to" }]
    else []) ++
  bindL ability_terms (fun term =>
    if pyIn term (pyLower line) then
      [{ line_number := ln, severity := S "info", category := S "Content Quality",
         message := S "Consider ability-neutral alternative to " ++ apos ++ term ++ apos,
         rule := S "ability_neutral",
         suggestion := S "Use inclusive language that doesn" ++ apos ++
           S "t assume specific abilities: " ++ apos ++ S "the image shows" ++ apos ++
           S " instead of " ++ apos ++ S "see the image" ++ apos }]
    else [])

/-- `StreamlitStyleChecker._check_content_accessibility` (the accessibility
    configuration value is fetched by the source but never used). -/
def check_content_accessibility (lines : List Str) : List StyleIssue :=
  bindL (enumerateFrom 1 lines) (fun p => accessibilityLineIssues p.1 p.2) ++
  bindL (findallImg (joinNL lines)) (fun tag =>
    if !(pyIn (S "alt=") (pyLower tag)) then
      [{ line_number := 1, severity := S "warning", category := S "Content Quality",
         message := S "Image missing alt text for accessibility",
         rule := S "image_alt_text",
         suggestion := S "Add descriptive alt text to all images for screen reader accessibility" }]
    else [])

/-- Heading loop of `_check_document_content_structure` with the running
    `prev_level` (initially 0, updated to each heading's level). -/
def headingHierarchyLoop : Nat → List (Nat × Str × Int) → List StyleIssue
  | _, [] => []
  | prev, (lvl, tx, ln) :: rest =>
    (if lvl > prev + 1 then
      [{ line_number := ln, severity := S "warning", category := S "Document Structure",
         message := S "Heading level " ++ natToStr lvl ++
           S " skips levels (previous was " ++ natToStr prev ++ S ")",
         rule := S "heading_hierarchy",
         suggestion := S "Use sequential heading levels (h1, h2, h3) without skipping",
         original_text := tx }]
     else []) ++ headingHierarchyLoop lvl rest

/-- `StreamlitStyleChecker._check_document_content_structure`: the
    table-of-contents check with its hard-coded fragment threshold 20, then
    the heading-hierarchy check (only when more than one heading exists). -/
def check_document_content_structure (text_lines : List Str)
    (headings : List (Nat × Str × Int)) : List StyleIssue :=
  (if (!(pyIn (S "table of contents") (pyLower (joinNL text_lines)))) &&
      text_lines.length > 20 then
    [{ line_number := 1, severity := S "info", category := S "Document Structure",
       message := S "Long document without Table of Contents",
       rule := S "table_of_contents",
       suggestion := S "Consider adding a Table of Contents for documents with multiple sections",
       original_text := S "" }]
   else []) ++
  (if headings.length > 1 then headingHierarchyLoop 0 headings else [])

/-- `StreamlitStyleChecker._check_multi_line_patterns`: callout balance,
    code-block theme, and a second table-of-contents check with its
    hard-coded fragment threshold 50. -/
def check_multi_line_patterns (lines : List Str) : List StyleIssue :=
  let content_text := joinNL lines
  (let warning_count := pyCount (pyLower content_text) (S "warning:")
   if warning_count > 5 then
     [{ line_number := 1, severity := S "info", category := S "Content Organization",
        message := S "High number of warnings (" ++ natToStr warning_count ++
          S ") - consider if all are necessary",
        rule := S "callout_balance",
        suggestion := S "Use warnings sparingly for critical safety information only" }]
   else []) ++
  bindL (findallFence content_text) (fun block =>
    if decide ((splitNL block).length > 10) && !(pyIn (S "django") (pyLower block)) then
      [{ line_number := 1, severity := S "info", category := S "Training Standards",
         message := S "Long code block should use Django theme",
         rule := S "code_block_theme",
         suggestion := S "Apply Django theme for syntax highlighting on code blocks longer than 10 lines" }]
    else []) ++
  (if decide (lines.length > 50) && !(hasTocPattern content_text) then
    [{ line_number := 1, severity := S "info", category := S "Document Structure",
       message := S "Long document may benefit from Table of Contents",
       rule := S "toc_recommended",
       suggestion := S "Consider adding a Table of Contents for documents with multiple sections" }]
   else [])

/-- The per-fragment body of `_check_extracted_content`: the six category
    checks, in source order, at the fragment's mapped source line. -/
def checkFragmentLine (cfg : StyleConfig) (line : Str) (ln : Int) : List StyleIssue :=
  check_grammar_and_mechanics cfg line ln ++
  check_writing_standards cfg line ln ++
  check_content_quality line ln ++
  check_formatting_standards cfg line ln ++
  check_training_standards line ln ++
  check_technical_content cfg line ln

/-- `dict.get(content_line_num, content_line_num)` on the line map. -/
def lineMapGet (m : List (Nat × Int)) (k : Nat) : Int :=
  match m.lookup k with
  | some v => v
  | none => (k : Int)

/-- Fragment loop of `_check_extracted_content`: blank fragments are skipped,
    the `enumerate` index still advancing. -/
def perFragmentIssues (cfg : StyleConfig) (lineMap : List (Nat × Int)) :
    Nat → List Str → List StyleIssue
  | _, [] => []
  | i, line :: rest =>
    (if (pyStrip line).isEmpty then []
     else checkFragmentLine cfg line (lineMapGet lineMap i)) ++
    perFragmentIssues cfg lineMap (i + 1) rest

/-- `StreamlitStyleChecker._check_extracted_content`: per-fragment checks,
    then headings, document patterns and accessibility. -/
def check_extracted_content (cfg : StyleConfig) (text_lines : List Str)
    (lineMap : List (Nat × Int)) (headings : List (Nat × Str × Int)) :
    List StyleIssue :=
  perFragmentIssues cfg lineMap 1 text_lines ++
  check_headings cfg headings ++
  check_document_patterns cfg text_lines ++
  check_content_accessibility text_lines

/-- `StreamlitStyleChecker.check_content`.  The method begins with
    `self.issues = []`, discarding the accumulated issues of any previous
    run; the `_prevIssues` parameter models that prior state and is therefore
    unused.  The Content Extractor is passed as an explicit function
    parameter: the source constructs a fresh `ContentExtractor` and calls its
    (deterministic) `extract_content`; every property proved below holds for
    an arbitrary extraction function.  (`self.original_lines` is assigned by
    the source but read nowhere.) -/
def check_content (extract : Str → Extraction) (cfg : StyleConfig)
    (_prevIssues : List StyleIssue) (content : Str) : List StyleIssue :=
  if (pyStrip content).isEmpty then []
  else
    let e := extract content
    check_extracted_content cfg e.text e.lineMap e.headings ++
    check_document_content_structure e.text e.headings ++
    check_multi_line_patterns e.text

/-- Configuration for claim C4: contraction policy `use_sparingly`, everything
    else absent. -/
def cfgC4 : StyleConfig := { contractions_policy := some (S "use_sparingly") }

/-- The fragment line of claim C4. -/
def lineC4 : Str := S "This shouldn" ++ apos ++ S "t happen."

/-- Configuration for claim C5: Oxford-comma rule `always_use`, everything
    else absent. -/
def cfgC5 : StyleConfig := { oxford_comma_rule := some (S "always_use") }

/-- The fragment line of claim C5. -/
def lineC5 : Str := S "Check AOS, AHV and NCC."

/-- An Edit used as a witness for claim C2: a plain in-range replacement. -/
def fixW2 : AutoFix :=
  { issue_id := S "0", original_text := S "a", fixed_text := S "X",
    line_number := 1, description := S "", confidence := S "high" }

/-- An Edit whose replacement text contains a line break (counterexample for
    claim C2 as stated). -/
def fixNL2 : AutoFix :=
  { issue_id := S "0", original_text := S "a", fixed_text := S "x\ny",
    line_number := 1, description := S "", confidence := S "high" }

/-- An Edit whose target line 0 is out of range of a one-line text
    (counterexample for claim C3 as stated: Python resolves index `-1` to the
    last line). -/
def fix0C3 : AutoFix :=
  { issue_id := S "0", original_text := S "a", fixed_text := S "X",
    line_number := 0, description := S "", confidence := S "high" }

/-- An Edit whose target line 5 exceeds the line count of a one-line text
    (witness for the amended claim C3). -/
def fix5C3 : AutoFix :=
  { issue_id := S "0", original_text := S "a", fixed_text := S "X",
    line_number := 5, description := S "", confidence := S "high" }

/-- Claim C8 as stated, following the spec's words: the missing
    table-of-contents check fires exactly when the document does not mention
    "table of contents" and the fragment count exceeds a length threshold
    taken from the configuration mapping, where different configurations can
    set different thresholds. -/
def TocThresholdConfigurable : Prop :=
  ∃ thr : StyleConfig → Nat,
    (∃ c1 c2 : StyleConfig, thr c1 ≠ thr c2) ∧
    ∀ (cfg : StyleConfig) (ls : List Str) (hs : List (Nat × Str × Int)),
      ((∃ i ∈ check_document_content_structure ls hs, i.rule = S "table_of_contents") ↔
        (pyIn (S "table of contents") (pyLower (joinNL ls)) = false ∧ ls.length > thr cfg))

/- ------------------------------------------------------------------ -/
/- Helper lemmas                                                      -/
/- ------------------------------------------------------------------ -/

theorem toNat_ofNat_small (n : Nat) (h : n < 55296) : (Char.ofNat n).toNat = n := by
  have hv : n.isValidChar := Or.inl h
  simp [Char.ofNat, hv, Char.ofNatAux, Char.toNat, UInt32.toNat, BitVec.toNat_ofNatLt]

theorem toLowerC_eq_self {c : Char} (h : ¬(65 ≤ c.toNat ∧ c.toNat ≤ 90)) :
    toLowerC c = c := by
  unfold toLowerC
  rw [if_neg h]

theorem toUpperC_eq_self {c : Char} (h : ¬(97 ≤ c.toNat ∧ c.toNat ≤ 122)) :
    toUpperC c = c := by
  unfold toUpperC
  rw [if_neg h]

theorem toNat_toLowerC (c : Char) :
    (toLowerC c).toNat = if 65 ≤ c.toNat ∧ c.toNat ≤ 90 then c.toNat + 32 else c.toNat := by
  unfold toLowerC
  split
  · rename_i h
    have hb : c.toNat + 32 < 55296 := by omega
    exact toNat_ofNat_small _ hb
  · rfl

theorem toNat_toUpperC (c : Char) :
    (toUpperC c).toNat = if 97 ≤ c.toNat ∧ c.toNat ≤ 122 then c.toNat - 32 else c.toNat := by
  unfold toUpperC
  split
  · rename_i h
    have hb : c.toNat - 32 < 55296 := by
      have := c.toNat
      omega
    exact toNat_ofNat_small _ hb
  · rfl

theorem toLowerC_toLowerC (c : Char) : toLowerC (toLowerC c) = toLowerC c := by
  by_cases h : 65 ≤ c.toNat ∧ c.toNat ≤ 90
  · have hx : (toLowerC c).toNat = c.toNat + 32 := by
      rw [toNat_toLowerC, if_pos h]
    apply toLowerC_eq_self
    omega
  · rw [toLowerC_eq_self h, toLowerC_eq_self h]

theorem toUpperC_toUpperC (c : Char) : toUpperC (toUpperC c) = toUpperC c := by
  by_cases h : 97 ≤ c.toNat ∧ c.toNat ≤ 122
  · have hx : (toUpperC c).toNat = c.toNat - 32 := by
      rw [toNat_toUpperC, if_pos h]
    apply toUpperC_eq_self
    omega
  · rw [toUpperC_eq_self h, toUpperC_eq_self h]

theorem toUpperC_toLowerC (c : Char) : toUpperC (toLowerC c) = toUpperC c := by
  by_cases h : 65 ≤ c.toNat ∧ c.toNat ≤ 90
  · have hx : (toLowerC c).toNat = c.toNat + 32 := by
      rw [toNat_toLowerC, if_pos h]
    have h2 : toUpperC (toLowerC c) = Char.ofNat ((toLowerC c).toNat - 32) := by
      unfold toUpperC
      rw [if_pos (by omega)]
    have h3 : (toLowerC c).toNat - 32 = c.toNat := by omega
    rw [h2, h3, Char.ofNat_toNat, toUpperC_eq_self (by omega)]
  · rw [toLowerC_eq_self h]

theorem isPySpace_toLowerC (c : Char) : isPySpace (toLowerC c) = isPySpace c := by
  by_cases h : 65 ≤ c.toNat ∧ c.toNat ≤ 90
  · have hx : (toLowerC c).toNat = c.toNat + 32 := by
      rw [toNat_toLowerC, if_pos h]
    have h1 : isPySpace c = false := by
      simp only [isPySpace]
      simp only [Bool.or_eq_false_iff, beq_eq_false_iff_ne, ne_eq]
      omega
    have h2 : isPySpace (toLowerC c) = false := by
      simp only [isPySpace, hx]
      simp only [Bool.or_eq_false_iff, beq_eq_false_iff_ne, ne_eq]
      omega
    rw [h1, h2]
  · rw [toLowerC_eq_self h]

theorem isPySpace_toUpperC (c : Char) : isPySpace (toUpperC c) = isPySpace c := by
  by_cases h : 97 ≤ c.toNat ∧ c.toNat ≤ 122
  · have hx : (toUpperC c).toNat = c.toNat - 32 := by
      rw [toNat_toUpperC, if_pos h]
    have h1 : isPySpace c = false := by
      simp only [isPySpace]
      simp only [Bool.or_eq_false_iff, beq_eq_false_iff_ne, ne_eq]
      omega
    have h2 : isPySpace (toUpperC c) = false := by
      simp only [isPySpace, hx]
      simp only [Bool.or_eq_false_iff, beq_eq_false_iff_ne, ne_eq]
      omega
    rw [h1, h2]
  · rw [toUpperC_eq_self h]

theorem pyLower_pyLower (s : Str) : pyLower (pyLower s) = pyLower s := by
  induction s with
  | nil => rfl
  | cons c t ih =>
    simp only [pyLower, List.map_cons] at *
    rw [toLowerC_toLowerC]
    exact congrArg _ ih

theorem pyUpper_pyUpper (s : Str) : pyUpper (pyUpper s) = pyUpper s := by
  induction s with
  | nil => rfl
  | cons c t ih =>
    simp only [pyUpper, List.map_cons] at *
    rw [toUpperC_toUpperC]
    exact congrArg _ ih

theorem pyUpper_pyLower (s : Str) : pyUpper (pyLower s) = pyUpper s := by
  induction s with
  | nil => rfl
  | cons c t ih =>
    simp only [pyLower, pyUpper, List.map_cons] at *
    rw [toUpperC_toLowerC]
    exact congrArg _ ih

theorem pyCapitalize_pyCapitalize (s : Str) :
    pyCapitalize (pyCapitalize s) = pyCapitalize s := by
  cases s with
  | nil => rfl
  | cons c t =>
    simp only [pyCapitalize]
    rw [toUpperC_toUpperC]
    exact congrArg _ (pyLower_pyLower t)

theorem splitNL_ne_nil (s : Str) : splitNL s ≠ [] := by
  cases s with
  | nil => simp [splitNL]
  | cons c t =>
    by_cases hc : c = '\n' <;> cases hs : splitNL t <;> simp [splitNL, hc, hs]

theorem joinNL_splitNL (s : Str) : joinNL (splitNL s) = s := by
  induction s with
  | nil => rfl
  | cons c t ih =>
    by_cases hc : c = '\n'
    · subst hc
      simp only [splitNL, if_pos rfl]
      cases hs : splitNL t with
      | nil => exact absurd hs (splitNL_ne_nil t)
      | cons h r =>
        rw [hs] at ih
        simp [joinNL, ih]
    · simp only [splitNL, if_neg hc]
      cases hs : splitNL t with
      | nil => exact absurd hs (splitNL_ne_nil t)
      | cons h r =>
        rw [hs] at ih
        cases r with
        | nil =>
          simp only [joinNL] at ih ⊢
          rw [ih]
        | cons h2 r2 =>
          simp only [joinNL] at ih ⊢
          rw [List.cons_append, ih]

theorem splitNL_no_newline (s : Str) : ∀ l ∈ splitNL s, '\n' ∉ l := by
  induction s with
  | nil =>
    intro l hl
    simp [splitNL] at hl
    simp [hl]
  | cons c t ih =>
    intro l hl
    by_cases hc : c = '\n'
    · subst hc
      simp only [splitNL, if_pos rfl] at hl
      rcases List.mem_cons.mp hl with h1 | h2
      · simp [h1]
      · exact ih l h2
    · simp only [splitNL, if_neg hc] at hl
      cases hs : splitNL t with
      | nil => exact absurd hs (splitNL_ne_nil t)
      | cons h r =>
        rw [hs] at hl
        rcases List.mem_cons.mp hl with h1 | h2
        · subst h1
          intro hmem
          rcases List.mem_cons.mp hmem with h3 | h4
          · exact hc h3.symm
          · exact ih h (by rw [hs]; exact List.mem_cons_self h r) h4
        · exact ih l (by rw [hs]; exact List.mem_cons_of_mem h h2)

theorem splitNL_of_no_newline (s : Str) (h : '\n' ∉ s) : splitNL s = [s] := by
  induction s with
  | nil => rfl
  | cons c t ih =>
    have hc : c ≠ '\n' := fun he => h (he ▸ List.mem_cons_self c t)
    have ht : '\n' ∉ t := fun hm => h (List.mem_cons_of_mem c hm)
    simp only [splitNL, if_neg hc, ih ht]

theorem splitNL_append_newline (l r : Str) (h : '\n' ∉ l) :
    splitNL (l ++ '\n' :: r) = l :: splitNL r := by
  induction l with
  | nil => simp [splitNL]
  | cons c t ih =>
    have hc : c ≠ '\n' := fun he => h (he ▸ List.mem_cons_self c t)
    have ht : '\n' ∉ t := fun hm => h (List.mem_cons_of_mem c hm)
    simp only [List.cons_append, splitNL, if_neg hc, List.append_eq]
    rw [ih ht]

theorem splitNL_joinNL (ls : List Str) (hne : ls ≠ [])
    (h : ∀ l ∈ ls, '\n' ∉ l) : splitNL (joinNL ls) = ls := by
  induction ls with
  | nil => exact absurd rfl hne
  | cons l rest ih =>
    cases rest with
    | nil =>
      simp only [joinNL]
      exact splitNL_of_no_newline l (h l (List.mem_cons_self l []))
    | cons l2 rest2 =>
      have h1 : '\n' ∉ l := h l (List.mem_cons_self _ _)
      simp only [joinNL]
      rw [splitNL_append_newline _ _ h1]
      have := ih (by simp) (fun x hx => h x (List.mem_cons_of_mem l hx))
      rw [this]

theorem pyReplaceFuel_mem (old new : Str) :
    ∀ (f : Nat) (s : Str) (c : Char), c ∈ pyReplaceFuel old new f s → c ∈ s ∨ c ∈ new := by
  intro f
  induction f with
  | zero =>
    intro s c h
    exact Or.inl h
  | succ f ih =>
    intro s c h
    cases s with
    | nil => simp [pyReplaceFuel] at h
    | cons a t =>
      simp only [pyReplaceFuel] at h
      split at h
      · rcases List.mem_append.mp h with h1 | h2
        · exact Or.inr h1
        · rcases ih _ _ h2 with h3 | h4
          · exact Or.inl (List.mem_cons_of_mem _ (List.mem_of_mem_drop h3))
          · exact Or.inr h4
      · rcases List.mem_cons.mp h with h1 | h2
        · exact Or.inl (h1 ▸ List.mem_cons_self a t)
        · rcases ih _ _ h2 with h3 | h4
          · exact Or.inl (List.mem_cons_of_mem _ h3)
          · exact Or.inr h4

theorem pyReplace_mem (s old new : Str) (c : Char)
    (h : c ∈ pyReplace s old new) : c ∈ s ∨ c ∈ new := by
  unfold pyReplace at h
  split at h
  · rcases List.mem_append.mp h with h1 | h2
    · exact Or.inr h1
    · clear h
      induction s with
      | nil => simp at h2
      | cons a t ih =>
        simp only [List.foldr_cons] at h2
        rcases List.mem_cons.mp h2 with h3 | h4
        · exact Or.inl (h3 ▸ List.mem_cons_self a t)
        · rcases List.mem_append.mp h4 with h5 | h6
          · exact Or.inr h5
          · rcases ih h6 with h7 | h8
            · exact Or.inl (List.mem_cons_of_mem _ h7)
            · exact Or.inr h8
  · exact pyReplaceFuel_mem old new _ _ _ h

theorem pyReplace_no_newline (s old new : Str) (hs : '\n' ∉ s) (hn : '\n' ∉ new) :
    '\n' ∉ pyReplace s old new := by
  intro h
  rcases pyReplace_mem s old new _ h with h1 | h2
  · exact hs h1
  · exact hn h2

theorem pyModify_spec (P : Str → Prop) (l l' : List Str) (i : Int) (g : Str → Str)
    (h : pyModify l i g = some l') (hP : ∀ x ∈ l, P x) (hg : ∀ x ∈ l, P (g x)) :
    l'.length = l.length ∧ ∀ x ∈ l', P x := by
  unfold pyModify at h
  split at h
  · cases h
  · split at h
    · cases h
    · rename_i k _ _ line hget
      injection h with h
      subst h
      refine ⟨List.length_set l k _, ?_⟩
      intro x hx
      rcases List.mem_or_eq_of_mem_set hx with h1 | h2
      · exact hP x h1
      · exact h2 ▸ hg line (List.get?_mem hget)

theorem apply_fixes_loop_spec :
    ∀ (fixes : List AutoFix) (lines lines' : List Str),
      apply_fixes_loop lines fixes = some lines' →
      (∀ f ∈ fixes, '\n' ∉ f.fixed_text) →
      (∀ l ∈ lines, '\n' ∉ l) →
      lines'.length = lines.length ∧ ∀ l ∈ lines', '\n' ∉ l := by
  intro fixes
  induction fixes with
  | nil =>
    intro lines lines' h _ hl
    simp only [apply_fixes_loop] at h
    injection h with h
    exact h ▸ ⟨rfl, hl⟩
  | cons f rest ih =>
    intro lines lines' h hf hl
    simp only [apply_fixes_loop] at h
    split at h
    · split at h
      case h_2 => cases h
      case h_1 lines2 hm =>
        have hfk : '\n' ∉ f.fixed_text := hf f (List.mem_cons_self f rest)
        obtain ⟨hlen2, hnl2⟩ :=
          pyModify_spec (fun x => '\n' ∉ x) lines lines2 _ _ hm hl
            (fun x hx => pyReplace_no_newline x _ _ (hl x hx) hfk)
        obtain ⟨hlen', hnl'⟩ :=
          ih lines2 lines' h (fun g hg => hf g (List.mem_cons_of_mem f hg)) hnl2
        exact ⟨hlen'.trans hlen2, hnl'⟩
    · exact ih lines lines' h (fun g hg => hf g (List.mem_cons_of_mem f hg)) hl

theorem mem_insertDescByLine (f g : AutoFix) (l : List AutoFix) :
    g ∈ insertDescByLine f l ↔ g = f ∨ g ∈ l := by
  induction l with
  | nil => simp [insertDescByLine]
  | cons a t ih =>
    simp only [insertDescByLine]
    split
    · simp only [List.mem_cons]
    · simp only [List.mem_cons, ih]
      tauto

theorem mem_foldl_insertDesc (fixes : List AutoFix) :
    ∀ (acc : List AutoFix) (g : AutoFix),
      g ∈ fixes.foldl (fun acc f => insertDescByLine f acc) acc ↔ g ∈ acc ∨ g ∈ fixes := by
  induction fixes with
  | nil => simp
  | cons f rest ih =>
    intro acc g
    simp only [List.foldl_cons]
    rw [ih, mem_insertDescByLine]
    simp only [List.mem_cons]
    tauto

theorem mem_sortFixesDesc (fixes : List AutoFix) (g : AutoFix) :
    g ∈ sortFixesDesc fixes ↔ g ∈ fixes := by
  unfold sortFixesDesc
  rw [mem_foldl_insertDesc]
  simp

/- ------------------------------------------------------------------ -/
/- Claims C2 and C3: the Fixer's apply operation                      -/
/- ------------------------------------------------------------------ -/

/-- Claim C2 (counterexample to the claim as stated): an Edit whose
    replacement text contains a line break is an intra-line substring
    replacement, yet applying it via `apply_fixes` changes the number of
    lines — here from one line to two. -/
theorem claim_C2_counterexample :
    apply_fixes (S "ab") [fixNL2] = some (S "x\nyb") ∧
    ¬((apply_fixes (S "ab") [fixNL2]).map countNL = some (countNL (S "ab"))) := by
  decide

/-- Claim C2 (amended): for every original text and every sequence of Edits
    whose replacement texts contain no line-break character, whenever
    `apply_fixes` completes without an indexing error, the revised text has
    exactly the same number of lines as the original. -/
theorem claim_C2_amended (content : Str) (fixes : List AutoFix)
    (hf : ∀ f ∈ fixes, '\n' ∉ f.fixed_text) (revised : Str)
    (h : apply_fixes content fixes = some revised) :
    countNL revised = countNL content := by
  unfold apply_fixes at h
  cases hl : apply_fixes_loop (splitNL content) (sortFixesDesc fixes) with
  | none => rw [hl] at h; cases h
  | some lines2 =>
    rw [hl] at h
    injection h with h
    have hmem : ∀ f ∈ sortFixesDesc fixes, '\n' ∉ f.fixed_text :=
      fun f hm => hf f ((mem_sortFixesDesc fixes f).mp hm)
    have hnl : ∀ l ∈ splitNL content, '\n' ∉ l := splitNL_no_newline content
    obtain ⟨hlen, hnl'⟩ := apply_fixes_loop_spec _ _ _ hl hmem hnl
    have hne : lines2 ≠ [] := by
      intro hnil
      rw [hnil] at hlen
      exact splitNL_ne_nil content (List.length_eq_zero.mp hlen.symm)
    rw [← h, countNL, splitNL_joinNL lines2 hne hnl', hlen, countNL]

/-- Witness for the amended claim C2 at a concrete input: one plain
    replacement on a one-line text keeps the line count at one. -/
theorem claim_C2_witness : countNL (S "Xb") = countNL (S "ab") :=
  claim_C2_amended (S "ab") [fixW2] (by decide) (S "Xb") (by decide)

/-- Claim C3 (counterexample to the claim as stated): target line 0 is out of
    range of the one-line text `"ab"` (valid target lines are 1..1), yet
    `apply_fixes` does not skip the Edit — Python resolves index `-1` to the
    last line — and the text changes. -/
theorem claim_C3_counterexample :
    apply_fixes (S "ab") [fix0C3] = some (S "Xb") ∧ S "Xb" ≠ S "ab" := by
  decide

/-- Claim C3 (amended): an Edit whose target line exceeds the number of lines
    of the text is skipped: `apply_fixes` leaves the text unchanged and
    raises no error.  (Target lines ≤ 0 are not guarded by the source: 0 and
    small negative values index from the end of the line list and mutate the
    text, and a target line below `-len` raises `IndexError`.) -/
theorem claim_C3_amended (content : Str) (fx : AutoFix)
    (h : ((splitNL content).length : Int) < fx.line_number) :
    apply_fixes content [fx] = some content := by
  unfold apply_fixes
  have hs : sortFixesDesc [fx] = [fx] := rfl
  rw [hs]
  show (apply_fixes_loop (splitNL content) [fx]).map joinNL = some content
  unfold apply_fixes_loop
  rw [if_neg (by omega)]
  unfold apply_fixes_loop
  simp [joinNL_splitNL]

/-- Witness for the amended claim C3 at a concrete input: target line 5 on
    the one-line text `"ab"` leaves it unchanged. -/
theorem claim_C3_witness : apply_fixes (S "ab") [fix5C3] = some (S "ab") :=
  claim_C3_amended (S "ab") fix5C3 (by decide)

/- ------------------------------------------------------------------ -/
/- Claims C1, C4, C5: concrete evaluations                            -/
/- ------------------------------------------------------------------ -/

/-- Claim C1 (evaluation at the failing input `"a\nb"`): the extractor wraps
    the two-line plain-text document in a synthetic root and XML-parses it,
    producing a single fragment `"a\nb"` mapped to line 1 — not one fragment
    per non-blank line.  The `_extract_plain_text` path, which would produce
    the claimed fragments `["a", "b"]` mapped to lines 1 and 2, is dead code:
    its guard is mutually exclusive with the wrapping guard tested first. -/
theorem claim_C1 :
    extract_content (S "a\nb") =
      some { text := [S "a\nb"], lineMap := [(1, 1)], headings := [] } ∧
    extract_plain_text (splitNL (S "a\nb")) =
      { text := [S "a", S "b"], lineMap := [(1, 1), (2, 2)], headings := [] } ∧
    [S "a\nb"] ≠ [S "a", S "b"] := by
  decide

/-- Claim C4: on the fragment line `"This shouldn't happen."` under
    contraction policy `use_sparingly`, the per-fragment Rule Engine emits
    exactly one issue — rule id `contractions`, original text `shouldn't`,
    auto-fixable — and applying the Edit the Fixer derives for it yields
    `"This should not happen."` with the line count unchanged. -/
theorem claim_C4 :
    (checkFragmentLine cfgC4 lineC4 1).map
        (fun i => (i.rule, i.original_text, i.can_auto_fix)) =
      [(S "contractions", ap "shouldn" "t", true)] ∧
    apply_fixes lineC4 (generate_fixes cfgC4 lineC4 (checkFragmentLine cfgC4 lineC4 1)) =
      some (S "This should not happen.") ∧
    countNL (S "This should not happen.") = countNL lineC4 := by
  decide

/-- Claim C5: on the fragment line `"Check AOS, AHV and NCC."` with the
    Oxford-comma rule `always_use`, the per-fragment Rule Engine emits
    exactly one issue — rule id `oxford_comma`, auto-fixable — and the Edit
    the Fixer derives replaces `"AOS, AHV and NCC"` with
    `"AOS, AHV, and NCC"`. -/
theorem claim_C5 :
    (checkFragmentLine cfgC5 lineC5 1).map
        (fun i => (i.rule, i.original_text, i.can_auto_fix)) =
      [(S "oxford_comma", S "AOS, AHV and NCC", true)] ∧
    (generate_fixes cfgC5 lineC5 (checkFragmentLine cfgC5 lineC5 1)).map
        (fun f => (f.original_text, f.fixed_text)) =
      [(S "AOS, AHV and NCC", S "AOS, AHV, and NCC")] := by
  decide

/- ------------------------------------------------------------------ -/
/- Claims C7 and C9: check_content                                    -/
/- ------------------------------------------------------------------ -/

/-- Claim C7: running the check twice on identical inputs yields identical
    issue sequences.  `check_content` starts by resetting the checker's issue
    accumulator (`self.issues = []`), so the issues accumulated by the first
    run — passed here as the prior state of the second run — cannot leak into
    the second run's output; this holds for every extraction function and
    configuration. -/
theorem claim_C7 (extract : Str → Extraction) (cfg : StyleConfig)
    (s0 : List StyleIssue) (d : Str) :
    check_content extract cfg (check_content extract cfg s0 d) d =
      check_content extract cfg s0 d := rfl

/-- Claim C9: on input that is empty or consists only of whitespace,
    `check_content` returns the empty issue sequence (the guard
    `if not content.strip()` returns before extraction or rule evaluation),
    for every extraction function, configuration and prior state. -/
theorem claim_C9 (extract : Str → Extraction) (cfg : StyleConfig)
    (prev : List StyleIssue) (d : Str) (h : ∀ c ∈ d, isPySpace c = true) :
    check_content extract cfg prev d = [] := by
  have h1 : d.dropWhile isPySpace = [] := List.dropWhile_eq_nil_iff.mpr h
  have h2 : pyStrip d = [] := by
    unfold pyStrip
    rw [h1]
    rfl
  unfold check_content
  rw [h2]
  rfl

/-- Witness for claim C9 at a concrete input: a whitespace-only document
    yields no issues. -/
theorem claim_C9_witness :
    check_content (fun _ => {}) {} [] (S "  \n ") = [] :=
  claim_C9 (fun _ => {}) {} [] (S "  \n ") (by decide)

/- ------------------------------------------------------------------ -/
/- Claim C6: heading hierarchy                                        -/
/- ------------------------------------------------------------------ -/

theorem filter_hh_cdcs (ls : List Str) (hs : List (Nat × Str × Int)) :
    (check_document_content_structure ls hs).filter
        (fun i => i.rule == S "heading_hierarchy") =
      (if hs.length > 1 then headingHierarchyLoop 0 hs else []).filter
        (fun i => i.rule == S "heading_hierarchy") := by
  unfold check_document_content_structure
  rw [List.filter_append]
  split
  · rw [List.filter_cons, if_neg (by decide), List.filter_nil, List.nil_append]
  · rw [List.filter_nil, List.nil_append]

/-- Claim C6: headings `[(1, "Intro"), (3, "Detail")]` yield exactly one
    `heading_hierarchy` warning, at the level-3 heading's line, whatever the
    fragment list and heading lines are; headings
    `[(1, "A"), (2, "B"), (3, "C")]` yield none. -/
theorem claim_C6 (ls ls2 : List Str) (l1 l2 la lb lc : Int) :
    ((check_document_content_structure ls
          [(1, S "Intro", l1), (3, S "Detail", l2)]).filter
        (fun i => i.rule == S "heading_hierarchy")).map
      (fun i => (i.line_number, i.severity)) = [(l2, S "warning")] ∧
    (check_document_content_structure ls2
          [(1, S "A", la), (2, S "B", lb), (3, S "C", lc)]).filter
        (fun i => i.rule == S "heading_hierarchy") = [] := by
  constructor
  · rw [filter_hh_cdcs, if_pos (by simp)]
    simp only [headingHierarchyLoop]
    rw [if_neg (by omega), if_pos (by omega)]
    rw [List.nil_append, List.append_nil, List.filter_cons, if_pos (by rfl),
      List.filter_nil]
    rfl
  · rw [filter_hh_cdcs, if_pos (by simp)]
    simp only [headingHierarchyLoop]
    rw [if_neg (by omega), if_neg (by omega), if_neg (by omega)]
    rfl

/- ------------------------------------------------------------------ -/
/- Claim C8: the table-of-contents threshold                          -/
/- ------------------------------------------------------------------ -/

theorem hh_loop_rule (hs : List (Nat × Str × Int)) :
    ∀ (prev : Nat), ∀ i ∈ headingHierarchyLoop prev hs,
      i.rule = S "heading_hierarchy" := by
  induction hs with
  | nil =>
    intro prev i hi
    simp [headingHierarchyLoop] at hi
  | cons h rest ih =>
    intro prev i hi
    obtain ⟨lvl, tx, ln⟩ := h
    simp only [headingHierarchyLoop] at hi
    rcases List.mem_append.mp hi with h1 | h2
    · split at h1
      · have := List.mem_singleton.mp h1
        subst this
        rfl
      · simp at h1
    · exact ih lvl i h2

theorem toc_fires_iff (ls : List Str) (hs : List (Nat × Str × Int)) :
    (∃ i ∈ check_document_content_structure ls hs, i.rule = S "table_of_contents") ↔
    (pyIn (S "table of contents") (pyLower (joinNL ls)) = false ∧ ls.length > 20) := by
  unfold check_document_content_structure
  constructor
  · rintro ⟨i, hi, hr⟩
    rcases List.mem_append.mp hi with h1 | h2
    · split at h1
      · rename_i hcond
        rw [Bool.and_eq_true] at hcond
        obtain ⟨hc1, hc2⟩ := hcond
        rw [Bool.not_eq_true'] at hc1
        exact ⟨hc1, of_decide_eq_true hc2⟩
      · simp at h1
    · have hrule : i.rule = S "heading_hierarchy" := by
        split at h2
        · exact hh_loop_rule hs 0 i h2
        · simp at h2
      rw [hrule] at hr
      exact absurd hr (by decide)
  · rintro ⟨h1, h2⟩
    have hcond : ((!pyIn (S "table of contents") (pyLower (joinNL ls))) &&
        decide (ls.length > 20)) = true := by
      rw [h1]
      simp [h2]
    rw [if_pos hcond]
    exact ⟨_, List.mem_append.mpr (Or.inl (List.mem_singleton.mpr rfl)), rfl⟩

/-- Claim C8 (amended): the missing-table-of-contents check of
    `_check_document_content_structure` (rule `table_of_contents`) fires
    exactly when the joined fragment text does not contain
    `"table of contents"` and the fragment count exceeds the hard-coded
    threshold 20.  The threshold is not read from the configuration (the
    second, independent check of `_check_multi_line_patterns`, rule
    `toc_recommended`, uses a hard-coded threshold of 50). -/
theorem claim_C8_amended (ls : List Str) (hs : List (Nat × Str × Int)) :
    (∃ i ∈ check_document_content_structure ls hs, i.rule = S "table_of_contents") ↔
    (pyIn (S "table of contents") (pyLower (joinNL ls)) = false ∧ ls.length > 20) :=
  toc_fires_iff ls hs

theorem mem_joinNL_replicate_x (n : Nat) (c : Char)
    (hc : c ∈ joinNL (List.replicate n (S "x"))) : c = 'x' ∨ c = '\n' := by
  induction n with
  | zero => simp [joinNL] at hc
  | succ k ih =>
    cases k with
    | zero =>
      rw [List.replicate_succ, List.replicate_zero] at hc
      simp only [joinNL] at hc
      left
      exact List.mem_singleton.mp hc
    | succ m =>
      rw [List.replicate_succ, List.replicate_succ] at hc
      simp only [joinNL] at hc
      rcases List.mem_append.mp hc with h1 | h2
      · left
        exact List.mem_singleton.mp h1
      · rcases List.mem_cons.mp h2 with h3 | h4
        · right
          exact h3
        · apply ih
          rw [List.replicate_succ]
          exact h4

theorem pyIn_toc_false (s : Str) (h : ∀ c ∈ s, c = 'x' ∨ c = '\n') :
    pyIn (S "table of contents") s = false := by
  induction s with
  | nil => rfl
  | cons c t ih =>
    have hc := h c (List.mem_cons_self c t)
    have ht : ∀ x ∈ t, x = 'x' ∨ x = '\n' :=
      fun x hx => h x (List.mem_cons_of_mem c hx)
    simp only [pyIn, Bool.or_eq_false_iff]
    refine ⟨?_, ih ht⟩
    rcases hc with rfl | rfl <;> simp [List.isPrefixOf, S]

theorem toc_mention_replicate_false (n : Nat) :
    pyIn (S "table of contents") (pyLower (joinNL (List.replicate n (S "x")))) = false := by
  apply pyIn_toc_false
  intro c hc
  rcases List.mem_map.mp hc with ⟨c0, hc0, rfl⟩
  rcases mem_joinNL_replicate_x n c0 hc0 with rfl | rfl
  · left
    decide
  · right
    decide

/-- Claim C8 (counterexample to the claim as stated): there is no threshold
    function of the configuration governing the check — the firing condition
    compares the fragment count against the constant 20 for every
    configuration, so no two configurations can set different thresholds. -/
theorem claim_C8_counterexample : ¬TocThresholdConfigurable := by
  rintro ⟨thr, ⟨c1, c2, hne⟩, hall⟩
  have hsame : ∀ n : Nat, (n > thr c1 ↔ n > thr c2) := by
    intro n
    have e1 := hall c1 (List.replicate n (S "x")) []
    have e2 := hall c2 (List.replicate n (S "x")) []
    rw [toc_mention_replicate_false n] at e1 e2
    simp only [List.length_replicate, eq_self_iff_true, true_and] at e1 e2
    exact e1.symm.trans e2
  have h1 := (hsame (thr c1 + 1)).mp (by omega)
  have h2 := (hsame (thr c2 + 1)).mpr (by omega)
  exact hne (by omega)

/- ------------------------------------------------------------------ -/
/- Claim C10: sentence-case idempotence                               -/
/- ------------------------------------------------------------------ -/

theorem pyWordsAux_props : ∀ (s acc : Str),
    (∀ c ∈ acc, isPySpace c = false) →
    ∀ w ∈ pyWordsAux acc s, w ≠ [] ∧ ∀ c ∈ w, isPySpace c = false := by
  intro s
  induction s with
  | nil =>
    intro acc hacc w hw
    simp only [pyWordsAux] at hw
    split at hw
    · simp at hw
    · rename_i hne
      have hwa := List.mem_singleton.mp hw
      subst hwa
      refine ⟨?_, ?_⟩
      · intro hnil
        exact hne (by rw [List.isEmpty_iff, ← List.reverse_eq_nil_iff, hnil])
      · intro c hc
        exact hacc c (List.mem_reverse.mp hc)
  | cons c t ih =>
    intro acc hacc w hw
    simp only [pyWordsAux] at hw
    split at hw
    · split at hw
      · exact ih [] (by simp) w hw
      · rename_i hne
        rcases List.mem_cons.mp hw with h1 | h2
        · subst h1
          refine ⟨?_, ?_⟩
          · intro hnil
            exact hne (by rw [List.isEmpty_iff, ← List.reverse_eq_nil_iff, hnil])
          · intro x hx
            exact hacc x (List.mem_reverse.mp hx)
        · exact ih [] (by simp) w h2
    · rename_i hcsp
      refine ih (c :: acc) ?_ w hw
      intro x hx
      rcases List.mem_cons.mp hx with h1 | h2
      · subst h1
        exact Bool.not_eq_true _ ▸ (Bool.eq_false_iff.mpr hcsp)
      · exact hacc x h2

theorem pyWords_props (s : Str) :
    ∀ w ∈ pyWords s, w ≠ [] ∧ ∀ c ∈ w, isPySpace c = false :=
  pyWordsAux_props s [] (by simp)

theorem pyWordsAux_append (w : Str) (hw : ∀ c ∈ w, isPySpace c = false) :
    ∀ (acc t : Str), pyWordsAux acc (w ++ t) = pyWordsAux (w.reverse ++ acc) t := by
  induction w with
  | nil => intro acc t; simp
  | cons c w' ih =>
    intro acc t
    have hc : isPySpace c = false := hw c (List.mem_cons_self c w')
    have hw' : ∀ x ∈ w', isPySpace x = false :=
      fun x hx => hw x (List.mem_cons_of_mem c hx)
    simp only [List.cons_append, pyWordsAux, List.append_eq]
    rw [if_neg (by simp [hc])]
    rw [ih hw' (c :: acc) t]
    congr 1
    simp

theorem pyWords_joinSpace : ∀ (ws : List Str),
    (∀ w ∈ ws, w ≠ [] ∧ ∀ c ∈ w, isPySpace c = false) →
    pyWords (joinSpace ws) = ws := by
  intro ws
  induction ws with
  | nil => intro _; rfl
  | cons w rest ih =>
    intro h
    obtain ⟨hne, hsf⟩ := h w (List.mem_cons_self w rest)
    have hwrev : ¬(w.reverse.isEmpty = true) := by
      rw [List.isEmpty_iff, List.reverse_eq_nil_iff]
      exact hne
    cases rest with
    | nil =>
      show pyWordsAux [] (joinSpace [w]) = [w]
      simp only [joinSpace]
      have hx := pyWordsAux_append w hsf [] []
      rw [List.append_nil, List.append_nil] at hx
      rw [hx]
      simp only [pyWordsAux]
      rw [if_neg hwrev]
      simp
    | cons w2 rest2 =>
      show pyWordsAux [] (joinSpace (w :: w2 :: rest2)) = w :: w2 :: rest2
      simp only [joinSpace]
      have hx := pyWordsAux_append w hsf [] (' ' :: joinSpace (w2 :: rest2))
      rw [List.append_nil] at hx
      rw [hx]
      simp only [pyWordsAux]
      rw [if_pos (by decide), if_neg hwrev]
      rw [List.reverse_reverse]
      have := ih (fun x hx => h x (List.mem_cons_of_mem w hx))
      rw [show pyWordsAux [] (joinSpace (w2 :: rest2)) = pyWords (joinSpace (w2 :: rest2)) from rfl,
        this]

theorem sentence_case_rest_idem (w : Str) :
    sentence_case_rest (sentence_case_rest w) = sentence_case_rest w := by
  by_cases hA : sc_acronyms.contains (pyUpper w) = true
  · have e1 : sentence_case_rest w = pyUpper w := by
      unfold sentence_case_rest
      rw [if_pos hA]
    rw [e1]
    unfold sentence_case_rest
    rw [pyUpper_pyUpper, if_pos hA]
  · by_cases hB : sc_small_words.contains (pyLower w) = true
    · have e1 : sentence_case_rest w = pyLower w := by
        unfold sentence_case_rest
        rw [if_neg hA, if_pos hB]
      rw [e1]
      unfold sentence_case_rest
      rw [pyUpper_pyLower, pyLower_pyLower, if_neg hA, if_pos hB]
    · have e1 : sentence_case_rest w = pyLower w := by
        unfold sentence_case_rest
        rw [if_neg hA, if_neg hB]
      rw [e1]
      unfold sentence_case_rest
      rw [pyUpper_pyLower, pyLower_pyLower, if_neg hA, if_neg hB]

theorem sentence_case_rest_props (w : Str)
    (h : w ≠ [] ∧ ∀ c ∈ w, isPySpace c = false) :
    sentence_case_rest w ≠ [] ∧ ∀ c ∈ sentence_case_rest w, isPySpace c = false := by
  obtain ⟨hne, hsf⟩ := h
  unfold sentence_case_rest
  split
  · constructor
    · intro hnil
      exact hne (List.map_eq_nil_iff.mp hnil)
    · intro c hc
      rcases List.mem_map.mp hc with ⟨c0, hc0, rfl⟩
      rw [isPySpace_toUpperC]
      exact hsf c0 hc0
  · split
    · constructor
      · intro hnil
        exact hne (List.map_eq_nil_iff.mp hnil)
      · intro c hc
        rcases List.mem_map.mp hc with ⟨c0, hc0, rfl⟩
        rw [isPySpace_toLowerC]
        exact hsf c0 hc0
    · constructor
      · intro hnil
        exact hne (List.map_eq_nil_iff.mp hnil)
      · intro c hc
        rcases List.mem_map.mp hc with ⟨c0, hc0, rfl⟩
        rw [isPySpace_toLowerC]
        exact hsf c0 hc0

theorem pyCapitalize_props (w : Str)
    (h : w ≠ [] ∧ ∀ c ∈ w, isPySpace c = false) :
    pyCapitalize w ≠ [] ∧ ∀ c ∈ pyCapitalize w, isPySpace c = false := by
  obtain ⟨hne, hsf⟩ := h
  cases w with
  | nil => exact absurd rfl hne
  | cons c t =>
    simp only [pyCapitalize]
    refine ⟨by simp, ?_⟩
    intro x hx
    rcases List.mem_cons.mp hx with h1 | h2
    · subst h1
      rw [isPySpace_toUpperC]
      exact hsf c (List.mem_cons_self c t)
    · rcases List.mem_map.mp h2 with ⟨c0, hc0, rfl⟩
      rw [isPySpace_toLowerC]
      exact hsf c0 (List.mem_cons_of_mem c hc0)

/-- Claim C10: the sentence-case conversion used by the heading fixer is
    idempotent — applying `_convert_to_sentence_case` twice yields the same
    result as applying it once, for every input string. -/
theorem claim_C10 (text : Str) :
    convert_to_sentence_case (convert_to_sentence_case text) =
      convert_to_sentence_case text := by
  cases hw : pyWords text with
  | nil =>
    have h1 : convert_to_sentence_case text = text := by
      unfold convert_to_sentence_case
      rw [hw]
    rw [h1]
    exact h1
  | cons w ws =>
    have hprops := pyWords_props text
    rw [hw] at hprops
    have hw0 := hprops w (List.mem_cons_self w ws)
    have hws : ∀ u ∈ ws, u ≠ [] ∧ ∀ c ∈ u, isPySpace c = false :=
      fun u hu => hprops u (List.mem_cons_of_mem w hu)
    have h1 : convert_to_sentence_case text =
        joinSpace (pyCapitalize w :: ws.map sentence_case_rest) := by
      unfold convert_to_sentence_case
      rw [hw]
    rw [h1]
    have hlist : ∀ u ∈ (pyCapitalize w :: ws.map sentence_case_rest),
        u ≠ [] ∧ ∀ c ∈ u, isPySpace c = false := by
      intro u hu
      rcases List.mem_cons.mp hu with h2 | h3
      · subst h2
        exact pyCapitalize_props w hw0
      · rcases List.mem_map.mp h3 with ⟨u0, hu0, rfl⟩
        exact sentence_case_rest_props u0 (hws u0 hu0)
    have h2 : pyWords (joinSpace (pyCapitalize w :: ws.map sentence_case_rest)) =
        pyCapitalize w :: ws.map sentence_case_rest :=
      pyWords_joinSpace _ hlist
    unfold convert_to_sentence_case
    rw [h2]
    show joinSpace (pyCapitalize (pyCapitalize w) ::
        List.map sentence_case_rest (List.map sentence_case_rest ws)) =
      joinSpace (pyCapitalize w :: List.map sentence_case_rest ws)
    rw [pyCapitalize_pyCapitalize, List.map_map]
    have hmapeq : List.map (sentence_case_rest ∘ sentence_case_rest) ws =
        List.map sentence_case_rest ws := by
      apply List.map_congr_left
      intro a _
      simp only [Function.comp_apply]
      exact sentence_case_rest_idem a
    rw [hmapeq]
